import Mathlib

/-!
Verification of the MedlabWarehouse stock computation engine.

The repository computes warehouse stock purely from ledger rows (invoice
items, transfer items, stock-out items).  This file gives a shallow
embedding of the relevant TypeScript code:

* `calculateProductStockInWarehouse` — the parallel-fetch version
  (src/unnamed/part_000), which resolves supplier names from a prefetched
  invoice map;
* `calculateProductStockInWarehouseSeq` — the sequential-fetch version
  (src/unnamed/part_001), which re-queries the supplier of the first
  contributing invoice per emitted batch;
* `validateStockAvailability` and `validateStockConsistency`
  (src/unnamed/part_000);
* `performTransfer` — the database writes performed by the transfer flow
  `WarehouseTransfer.handleSubmit` (src/unnamed/part_005).

A database snapshot is modelled as lists of rows (`DB`); Supabase queries
become list filters over the snapshot, so a fixed snapshot yields a fixed,
deterministic row order.  JavaScript numbers are modelled as exact
integers (`Int`): every quantity and price of the spec's scenarios is
integral, no aggregation step divides, and all properties proved here are
ring-level facts that hold verbatim over any exact numeric model.  ISO
date strings and identifiers are `String`s.
-/

namespace Medlab

inductive ProductType where
  | reagent
  | consumable
deriving DecidableEq, Repr

structure Warehouse where
  id : String
  name : String
  code : String
deriving DecidableEq, Repr

/-- A product row from either the `reagents` or the `consumables` table. -/
structure Product where
  id : String
  code : String
  name : String
deriving DecidableEq, Repr

structure Invoice where
  id : String
  supplier : String
  warehouse_id : String
  status : String
deriving DecidableEq, Repr

structure InvoiceItem where
  invoice_id : String
  product_type : ProductType
  product_id : String
  quantity : Int
  unit_price : Int
  batch_date : String
deriving DecidableEq, Repr

structure Transfer where
  id : String
  from_warehouse_id : String
  to_warehouse_id : String
  date : String
  total_amount : Int
deriving DecidableEq, Repr

structure TransferItem where
  transfer_id : String
  product_type : ProductType
  product_id : String
  batch_date : String
  quantity : Int
  unit_price : Int
  total_price : Int
deriving DecidableEq, Repr

structure StockOut where
  id : String
  warehouse_id : String
  date : String
  reason : String
  total_amount : Int
  transfer_id : Option String
deriving DecidableEq, Repr

structure StockOutItem where
  stockout_id : String
  product_type : ProductType
  product_id : String
  batch_date : String
  quantity : Int
  unit_price : Int
  total_price : Int
deriving DecidableEq, Repr

/-- A fixed snapshot of the external row store.  Queries are filters over
these lists, so query results are deterministic for a fixed snapshot. -/
structure DB where
  warehouses : List Warehouse
  reagents : List Product
  consumables : List Product
  invoices : List Invoice
  invoice_items : List InvoiceItem
  transfers : List Transfer
  transfer_items : List TransferItem
  stock_out : List StockOut
  stock_out_items : List StockOutItem
deriving DecidableEq, Repr

/-! ### The six ledger queries

Each `.from(...).select(...).eq(...)` call of the source becomes a filter
over the corresponding snapshot list.  The `ids.length > 0 ? ... : []`
guards of the source are dropped: filtering with an empty id list already
yields the empty list. -/

/-- `supabase.from('invoices').select(..).eq('warehouse_id', w).eq('status', 'active')`. -/
def activeInvoices (db : DB) (warehouseId : String) : List Invoice :=
  db.invoices.filter fun i => i.warehouse_id == warehouseId && i.status == "active"

/-- `supabase.from('invoice_items')...in('invoice_id', invoiceIds)` where
`invoiceIds` are the active invoices of the warehouse. -/
def stockEntries (db : DB) (warehouseId productId : String) (productType : ProductType) :
    List InvoiceItem :=
  let invoiceIds := (activeInvoices db warehouseId).map Invoice.id
  db.invoice_items.filter fun e =>
    e.product_type == productType && e.product_id == productId
      && invoiceIds.contains e.invoice_id

/-- `supabase.from('transfers').select('id').eq('to_warehouse_id', w)`. -/
def transfersInto (db : DB) (warehouseId : String) : List Transfer :=
  db.transfers.filter fun t => t.to_warehouse_id == warehouseId

/-- `supabase.from('transfers').select('id').eq('from_warehouse_id', w)`. -/
def transfersOutOf (db : DB) (warehouseId : String) : List Transfer :=
  db.transfers.filter fun t => t.from_warehouse_id == warehouseId

/-- `supabase.from('transfer_items')...in('transfer_id', transferInIds)`. -/
def transferItemsInto (db : DB) (warehouseId productId : String) (productType : ProductType) :
    List TransferItem :=
  let ids := (transfersInto db warehouseId).map Transfer.id
  db.transfer_items.filter fun x =>
    x.product_type == productType && x.product_id == productId && ids.contains x.transfer_id

/-- `supabase.from('transfer_items')...in('transfer_id', transferOutIds)`. -/
def transferItemsOutOf (db : DB) (warehouseId productId : String) (productType : ProductType) :
    List TransferItem :=
  let ids := (transfersOutOf db warehouseId).map Transfer.id
  db.transfer_items.filter fun x =>
    x.product_type == productType && x.product_id == productId && ids.contains x.transfer_id

/-- `supabase.from('stock_out').select('id').eq('warehouse_id', w).neq('reason', 'transfer')`.
Both source versions (part_000 line 51-55 and part_001 line 54-58) carry the
`.neq('reason', 'transfer')` filter. -/
def stockOutsFor (db : DB) (warehouseId : String) : List StockOut :=
  db.stock_out.filter fun s => s.warehouse_id == warehouseId && !(s.reason == "transfer")

/-- `supabase.from('stock_out_items')...in('stockout_id', stockOutIds)`. -/
def stockOutItemsFor (db : DB) (warehouseId productId : String) (productType : ProductType) :
    List StockOutItem :=
  let ids := (stockOutsFor db warehouseId).map StockOut.id
  db.stock_out_items.filter fun x =>
    x.product_type == productType && x.product_id == productId && ids.contains x.stockout_id

/-! ### The batch accumulator (`batchMap`)

The source keys a JS `Map` by the string `` `${batch_date}_${unit_price}` ``
and later recovers the date with `key.split('_')[0]`.  ISO dates contain no
underscore and JS number-to-string conversion is injective, so the string
key is equivalent to the pair `(batch_date, unit_price)`; we key by the
pair.  A JS `Map` preserves insertion order, modelled by an association
list to which fresh keys are appended at the end. -/

structure BatchAcc where
  quantity : Int
  price : Int
  invoiceIds : List String
deriving DecidableEq, Repr

abbrev BatchKey := String × Int

abbrev BatchMap := List (BatchKey × BatchAcc)

/-- JS `Set.add`: insertion-ordered, duplicate-free. -/
def setInsert (l : List String) (x : String) : List String :=
  if x ∈ l then l else l ++ [x]

/-- One `batchMap` upsert: `if (!batchMap.has(key)) batchMap.set(key, {quantity: 0, price, invoiceIds: new Set()});
current.quantity += quantity; [current.invoiceIds.add(invoiceId)]`.
`invId = none` for transfer-in lines, which carry no invoice attribution. -/
def bmUpdate (m : BatchMap) (k : BatchKey) (q : Int) (invId : Option String) : BatchMap :=
  match m with
  | [] =>
      [(k, { quantity := q, price := k.2,
             invoiceIds := match invId with | some i => [i] | none => [] })]
  | (k', a) :: rest =>
      if k' = k then
        (k', { quantity := a.quantity + q, price := a.price,
               invoiceIds := match invId with
                 | some i => setInsert a.invoiceIds i
                 | none => a.invoiceIds }) :: rest
      else
        (k', a) :: bmUpdate rest k q invId

/-- The two `forEach` loops filling `batchMap`: invoice entries first, then
transfer-in items (part_000 lines 103-120). -/
def buildBatchMap (entries : List InvoiceItem) (transferItemsIn : List TransferItem) : BatchMap :=
  let m := entries.foldl
    (fun m e => bmUpdate m (e.batch_date, e.unit_price) e.quantity (some e.invoice_id)) []
  transferItemsIn.foldl
    (fun m t => bmUpdate m (t.batch_date, t.unit_price) t.quantity none) m

/-! ### The decrease accumulator (`exitMap`), keyed by `batch_date` only -/

abbrev ExitMap := List (String × Int)

/-- `const current = exitMap.get(d) || 0; exitMap.set(d, current + q)`. -/
def exUpdate (m : ExitMap) (d : String) (q : Int) : ExitMap :=
  match m with
  | [] => [(d, q)]
  | (d', v) :: rest =>
      if d' = d then (d', v + q) :: rest else (d', v) :: exUpdate rest d q

/-- The two `forEach` loops filling `exitMap`: stock-out items, then
transfer-out items (part_000 lines 122-132). -/
def buildExitMap (stockOutItems : List StockOutItem) (transferItemsOut : List TransferItem) :
    ExitMap :=
  let m := stockOutItems.foldl (fun m x => exUpdate m x.batch_date x.quantity) []
  transferItemsOut.foldl (fun m x => exUpdate m x.batch_date x.quantity) m

/-- `exitMap.get(batchDate) || 0`. -/
def exGet (m : ExitMap) (d : String) : Int :=
  match m.find? (fun p => p.1 = d) with
  | some p => p.2
  | none => 0

/-! ### Emission, totals and sorting -/

structure BatchOut where
  batch_date : String
  quantity : Int
  unit_price : Int
  total_price : Int
  supplier : String
deriving DecidableEq, Repr

structure StockCalculationResult where
  totalQuantity : Int
  totalValue : Int
  batches : List BatchOut
deriving DecidableEq, Repr

/-- The emission loop over `batchMap` (part_000 lines 138-158): subtract the
full per-date exit total from each bucket and keep only strictly positive
nets.  `resolve` abstracts the supplier resolution, which is the one point
where the two source versions differ. -/
def emitBatches (resolve : List String → String) (em : ExitMap) : BatchMap → List BatchOut
  | [] => []
  | (k, a) :: rest =>
      let exitQty := exGet em k.1
      let netQty := a.quantity - exitQty
      if 0 < netQty then
        { batch_date := k.1, quantity := netQty, unit_price := a.price,
          total_price := netQty * a.price, supplier := resolve a.invoiceIds }
          :: emitBatches resolve em rest
      else
        emitBatches resolve em rest

/-- Stable insertion into a list sorted by `batch_date` descending; an
element is placed after every element with an equal or later date, matching
the stable JS `sort((a, b) => b.batch_date.localeCompare(a.batch_date))`
(ISO dates compare identically under `localeCompare` and byte-wise order). -/
def insBatch (x : BatchOut) : List BatchOut → List BatchOut
  | [] => [x]
  | y :: ys => if y.batch_date < x.batch_date then x :: y :: ys else y :: insBatch x ys

def sortBatches (l : List BatchOut) : List BatchOut :=
  l.foldl (fun acc x => insBatch x acc) []

/-! ### Supplier resolution: the two source variants -/

/-- `invoiceMap.set(inv.id, inv.supplier || '')` over the active invoices, in
order; a JS `Map.set` overwrites, so a duplicated id keeps the last value.
For a string `s`, `s || ''` is `s` (the only falsy string is `''` itself). -/
def invoiceMapSet (m : List (String × String)) (k v : String) : List (String × String) :=
  match m with
  | [] => [(k, v)]
  | (k', v') :: rest =>
      if k' = k then (k', v) :: rest else (k', v') :: invoiceMapSet rest k v

def buildInvoiceMap (invs : List Invoice) : List (String × String) :=
  invs.foldl (fun m inv => invoiceMapSet m inv.id inv.supplier) []

/-- `invoiceMap.get(k) || ''`. -/
def invoiceMapGet (m : List (String × String)) (k : String) : String :=
  match m.find? (fun p => p.1 = k) with
  | some p => p.2
  | none => ""

/-- part_000 lines 144-145: `invoiceIds.length > 0 ? invoiceMap.get(invoiceIds[0]) || '' : ''`. -/
def resolveSupplierPar (db : DB) (warehouseId : String) (ids : List String) : String :=
  match ids with
  | [] => ""
  | i :: _ => invoiceMapGet (buildInvoiceMap (activeInvoices db warehouseId)) i

/-- part_001 lines 134-145: re-query the whole `invoices` table for the first
contributing invoice id with `.maybeSingle()`.  `maybeSingle` yields the row
when exactly one row matches and `null` (leaving `supplier = ''`) otherwise. -/
def resolveSupplierSeq (db : DB) (ids : List String) : String :=
  match ids with
  | [] => ""
  | i :: _ =>
      match db.invoices.filter (fun inv => inv.id == i) with
      | [inv] => inv.supplier
      | _ => ""

/-- Shared tail of both versions: build the two accumulators, emit, total and
sort.  The running totals of the source add exactly the `netQty` and
`netQty * price` of each pushed batch, i.e. the sums over the emitted list. -/
def assembleStock (resolve : List String → String) (entries : List InvoiceItem)
    (tin : List TransferItem) (souts : List StockOutItem) (tout : List TransferItem) :
    StockCalculationResult :=
  let bm := buildBatchMap entries tin
  let em := buildExitMap souts tout
  let emitted := emitBatches resolve em bm
  { totalQuantity := (emitted.map BatchOut.quantity).sum
    totalValue := (emitted.map BatchOut.total_price).sum
    batches := sortBatches emitted }

/-- `calculateProductStockInWarehouse` of src/unnamed/part_000 (parallel
fetches, prefetched supplier map). -/
def calculateProductStockInWarehouse (db : DB) (warehouseId productId : String)
    (productType : ProductType) : StockCalculationResult :=
  assembleStock (resolveSupplierPar db warehouseId)
    (stockEntries db warehouseId productId productType)
    (transferItemsInto db warehouseId productId productType)
    (stockOutItemsFor db warehouseId productId productType)
    (transferItemsOutOf db warehouseId productId productType)

/-- `calculateProductStockInWarehouse` of src/unnamed/part_001 (sequential
fetches, per-batch supplier re-query).  The queries and aggregation are
textually identical to part_000; only the supplier resolution differs. -/
def calculateProductStockInWarehouseSeq (db : DB) (warehouseId productId : String)
    (productType : ProductType) : StockCalculationResult :=
  assembleStock (resolveSupplierSeq db)
    (stockEntries db warehouseId productId productType)
    (transferItemsInto db warehouseId productId productType)
    (stockOutItemsFor db warehouseId productId productType)
    (transferItemsOutOf db warehouseId productId productType)

/-- `validateStockAvailability` (part_000 lines 167-179). -/
def validateStockAvailability (db : DB) (warehouseId productId : String)
    (productType : ProductType) (requestedQuantity : Int) : Bool × Int :=
  let stock := calculateProductStockInWarehouse db warehouseId productId productType
  (decide (requestedQuantity ≤ stock.totalQuantity), stock.totalQuantity)

structure StockConsistencyIssue where
  warehouse_id : String
  warehouse_name : String
  product_id : String
  product_code : String
  product_name : String
  product_type : ProductType
  calculated_stock : Int
  issue : String
deriving DecidableEq, Repr

/-- `validateStockConsistency` (part_000 lines 192-230): iterate all
warehouses × (reagents tagged `reagent` then consumables tagged
`consumable`), compute the stock of each pair and report the pairs whose
`totalQuantity` is negative. -/
def validateStockConsistency (db : DB) : List StockConsistencyIssue :=
  let allProducts :=
    db.reagents.map (fun r => (r, ProductType.reagent))
      ++ db.consumables.map (fun c => (c, ProductType.consumable))
  db.warehouses.flatMap fun w =>
    allProducts.filterMap fun pr =>
      let stock := calculateProductStockInWarehouse db w.id pr.1.id pr.2
      if stock.totalQuantity < 0 then
        some { warehouse_id := w.id, warehouse_name := w.name,
               product_id := pr.1.id, product_code := pr.1.code,
               product_name := pr.1.name, product_type := pr.2,
               calculated_stock := stock.totalQuantity,
               issue := "Negative stock detected" }
      else
        none

/-! ### The transfer flow (`WarehouseTransfer.handleSubmit`, part_005)

After the validation guards pass, the flow inserts one `transfers` row, one
`transfer_items` row per selected batch, one `stock_out` row with reason
`'transfer'` referencing the transfer, and the mirroring `stock_out_items`
rows.  Every inserted line carries the selected batch's original
`batch_date` and `unit_price` (`item.batch_date`, part_005 lines 684 and
703); the document date is the chosen transfer date. -/

structure SelectedItem where
  product_type : ProductType
  product_id : String
  batch_date : String
  unit_price : Int
  transfer_quantity : Int
deriving DecidableEq, Repr

def performTransfer (db : DB) (fromWarehouse toWarehouse transferDate : String)
    (items : List SelectedItem) (transferId stockOutId : String) : DB :=
  let totalAmount := (items.map (fun it => it.transfer_quantity * it.unit_price)).sum
  { db with
    transfers := db.transfers ++
      [{ id := transferId, from_warehouse_id := fromWarehouse,
         to_warehouse_id := toWarehouse, date := transferDate,
         total_amount := totalAmount }]
    transfer_items := db.transfer_items ++ items.map (fun it =>
      { transfer_id := transferId, product_type := it.product_type,
        product_id := it.product_id, batch_date := it.batch_date,
        quantity := it.transfer_quantity, unit_price := it.unit_price,
        total_price := it.transfer_quantity * it.unit_price })
    stock_out := db.stock_out ++
      [{ id := stockOutId, warehouse_id := fromWarehouse, date := transferDate,
         reason := "transfer", total_amount := totalAmount,
         transfer_id := some transferId }]
    stock_out_items := db.stock_out_items ++ items.map (fun it =>
      { stockout_id := stockOutId, product_type := it.product_type,
        product_id := it.product_id, batch_date := it.batch_date,
        quantity := it.transfer_quantity, unit_price := it.unit_price,
        total_price := it.transfer_quantity * it.unit_price }) }

/-! ### Specification-side sums

These definitions follow the spec's wording of the algebraic event sums and
are compared against the computation. -/

/-- Total increase booked to the batch bucket `(d, p)`: invoice entries and
transfer-in items with that batch date and unit price. -/
def incSumAt (entries : List InvoiceItem) (tin : List TransferItem) (d : String) (p : Int) :
    Int :=
  ((entries.filter (fun e => e.batch_date == d && e.unit_price == p)).map
      InvoiceItem.quantity).sum
    + ((tin.filter (fun t => t.batch_date == d && t.unit_price == p)).map
        TransferItem.quantity).sum

/-- Total decrease booked to the date `d`, irrespective of unit price:
stock-out items and transfer-out items with that batch date. -/
def exitSumAt (souts : List StockOutItem) (tout : List TransferItem) (d : String) : Int :=
  ((souts.filter (fun x => x.batch_date == d)).map StockOutItem.quantity).sum
    + ((tout.filter (fun x => x.batch_date == d)).map TransferItem.quantity).sum

/-- The batch keys `(batch_date, unit_price)` of all increase events of the
pair, in query order: invoice entries first, then transfer-in items. -/
def recKeys (entries : List InvoiceItem) (tin : List TransferItem) : List BatchKey :=
  entries.map (fun e => (e.batch_date, e.unit_price))
    ++ tin.map (fun t => (t.batch_date, t.unit_price))

/-- Modelled from the spec: the "exact algebraic sum of all signed ledger
events" of claim C1 — active-invoice lines and transfer-in quantities
positive, transfer-out and stock-out quantities negative, where the
stock-out lines are those of **all** stock-out documents of the warehouse,
whatever their reason tag. -/
def specSignedSum (db : DB) (warehouseId productId : String) (productType : ProductType) :
    Int :=
  let allOutIds := (db.stock_out.filter (fun s => s.warehouse_id == warehouseId)).map
    StockOut.id
  let allOutItems := db.stock_out_items.filter fun x =>
    x.product_type == productType && x.product_id == productId
      && allOutIds.contains x.stockout_id
  ((stockEntries db warehouseId productId productType).map InvoiceItem.quantity).sum
    + ((transferItemsInto db warehouseId productId productType).map TransferItem.quantity).sum
    - ((transferItemsOutOf db warehouseId productId productType).map TransferItem.quantity).sum
    - (allOutItems.map StockOutItem.quantity).sum

end Medlab

namespace Medlab

/-! ## Lemma library -/

/-- The positive part: value a bucket contributes to the totals. -/
def posPart (x : Int) : Int := if 0 < x then x else 0

theorem posPart_of_pos {x : Int} (h : 0 < x) : posPart x = x := if_pos h

theorem posPart_of_nonpos {x : Int} (h : x ≤ 0) : posPart x = 0 := if_neg (not_lt.mpr h)

theorem posPart_nonneg (x : Int) : 0 ≤ posPart x := by
  unfold posPart; split
  · exact le_of_lt (by assumption)
  · exact le_refl 0

theorem posPart_of_nonneg {x : Int} (h : 0 ≤ x) : posPart x = x := by
  rcases lt_or_eq_of_le h with h' | h'
  · exact posPart_of_pos h'
  · rw [← h']; rfl

/-- Keys of a batch map, in insertion order. -/
def bmKeys (m : BatchMap) : List BatchKey := m.map Prod.fst

/-- Accumulated quantity at a key (0 when absent), reading the first entry
with that key, as a JS `Map.get` does on our insertion-ordered list. -/
def bmQty (m : BatchMap) (k : BatchKey) : Int :=
  match m.find? (fun e => e.1 = k) with
  | some e => e.2.quantity
  | none => 0

theorem bmKeys_nil : bmKeys [] = [] := rfl

theorem bmKeys_cons (e : BatchKey × BatchAcc) (m : BatchMap) :
    bmKeys (e :: m) = e.1 :: bmKeys m := rfl

theorem bmQty_nil (k : BatchKey) : bmQty [] k = 0 := rfl

theorem bmQty_cons (k₀ : BatchKey) (a : BatchAcc) (m : BatchMap) (k : BatchKey) :
    bmQty ((k₀, a) :: m) k = if k₀ = k then a.quantity else bmQty m k := by
  by_cases h : k₀ = k
  · simp [bmQty, List.find?, h]
  · simp [bmQty, List.find?, h]

theorem bmKeys_bmUpdate (m : BatchMap) (k : BatchKey) (q : Int) (o : Option String) :
    bmKeys (bmUpdate m k q o) =
      if k ∈ bmKeys m then bmKeys m else bmKeys m ++ [k] := by
  induction m with
  | nil => simp [bmUpdate, bmKeys]
  | cons e m ih =>
      obtain ⟨k', a⟩ := e
      by_cases hk : k' = k
      · subst hk
        simp [bmUpdate, bmKeys_cons]
      · have hne : k ≠ k' := fun h => hk h.symm
        simp only [bmUpdate, if_neg hk, bmKeys_cons, ih]
        by_cases hmem : k ∈ bmKeys m
        · rw [if_pos hmem, if_pos (List.mem_cons_of_mem _ hmem)]
        · rw [if_neg hmem, if_neg (by simp [List.mem_cons, hne, hmem]),
            List.cons_append]

theorem bmQty_bmUpdate (m : BatchMap) (k k' : BatchKey) (q : Int) (o : Option String) :
    bmQty (bmUpdate m k q o) k' = bmQty m k' + if k' = k then q else 0 := by
  induction m with
  | nil =>
      by_cases h : k' = k
      · subst h
        show bmQty [(k', _)] k' = 0 + if k' = k' then q else 0
        rw [bmQty_cons, if_pos rfl, if_pos rfl, zero_add]
      · have h2 : ¬ k = k' := fun hh => h hh.symm
        show bmQty [(k, _)] k' = 0 + if k' = k then q else 0
        rw [bmQty_cons, if_neg h2, if_neg h, bmQty_nil, zero_add]
  | cons e m ih =>
      obtain ⟨k₀, a⟩ := e
      by_cases hk : k₀ = k
      · subst hk
        show bmQty (bmUpdate ((k₀, a) :: m) k₀ q o) k' =
          bmQty ((k₀, a) :: m) k' + if k' = k₀ then q else 0
        unfold bmUpdate
        rw [if_pos rfl, bmQty_cons, bmQty_cons]
        by_cases h' : k₀ = k'
        · rw [if_pos h', if_pos h', if_pos h'.symm]
        · have h'' : ¬ k' = k₀ := fun h => h' h.symm
          rw [if_neg h', if_neg h', if_neg h'', add_zero]
      · show bmQty (bmUpdate ((k₀, a) :: m) k q o) k' =
          bmQty ((k₀, a) :: m) k' + if k' = k then q else 0
        unfold bmUpdate
        rw [if_neg hk, bmQty_cons, bmQty_cons]
        by_cases h' : k₀ = k'
        · have hne : ¬ k' = k := fun h => hk (h'.trans h)
          rw [if_pos h', if_pos h', if_neg hne, add_zero]
        · rw [if_neg h', if_neg h', ih]

end Medlab

namespace Medlab

theorem bmKeys_nodup_bmUpdate (m : BatchMap) (k : BatchKey) (q : Int) (o : Option String)
    (h : (bmKeys m).Nodup) : (bmKeys (bmUpdate m k q o)).Nodup := by
  rw [bmKeys_bmUpdate]
  by_cases hk : k ∈ bmKeys m
  · rwa [if_pos hk]
  · rw [if_neg hk]
    simpa [List.nodup_append] using ⟨h, hk⟩

theorem bmKeys_subset_bmUpdate (m : BatchMap) (k : BatchKey) (q : Int) (o : Option String) :
    bmKeys (bmUpdate m k q o) ⊆ bmKeys m ++ [k] := by
  rw [bmKeys_bmUpdate]
  by_cases hk : k ∈ bmKeys m
  · rw [if_pos hk]; exact fun x hx => List.mem_append_left _ hx
  · rw [if_neg hk]; exact fun x hx => hx

theorem bmKeys_mono_bmUpdate (m : BatchMap) (k : BatchKey) (q : Int) (o : Option String) :
    bmKeys m ⊆ bmKeys (bmUpdate m k q o) := by
  rw [bmKeys_bmUpdate]
  by_cases hk : k ∈ bmKeys m
  · rw [if_pos hk]; exact fun x hx => hx
  · rw [if_neg hk]; exact fun x hx => List.mem_append_left _ hx

theorem mem_bmKeys_bmUpdate (m : BatchMap) (k : BatchKey) (q : Int) (o : Option String) :
    k ∈ bmKeys (bmUpdate m k q o) := by
  rw [bmKeys_bmUpdate]
  by_cases hk : k ∈ bmKeys m
  · rwa [if_pos hk]
  · rw [if_neg hk]; exact List.mem_append_right _ (List.mem_singleton.mpr rfl)

theorem price_inv_bmUpdate (m : BatchMap) (k : BatchKey) (q : Int) (o : Option String)
    (h : ∀ e ∈ m, e.2.price = e.1.2) : ∀ e ∈ bmUpdate m k q o, e.2.price = e.1.2 := by
  induction m with
  | nil =>
      intro e he
      simp only [bmUpdate, List.mem_singleton] at he
      subst he; rfl
  | cons hd m ih =>
      obtain ⟨k₀, a⟩ := hd
      intro e he
      by_cases hk : k₀ = k
      · subst hk
        unfold bmUpdate at he
        rw [if_pos rfl] at he
        rcases List.mem_cons.mp he with h1 | h1
        · subst h1
          exact h (k₀, a) (List.mem_cons_self _ _)
        · exact h e (List.mem_cons_of_mem _ h1)
      · unfold bmUpdate at he
        rw [if_neg hk] at he
        rcases List.mem_cons.mp he with h1 | h1
        · subst h1
          exact h (k₀, a) (List.mem_cons_self _ _)
        · exact ih (fun e' he' => h e' (List.mem_cons_of_mem _ he')) e h1

theorem mem_setInsert {l : List String} {x i : String} (h : i ∈ setInsert l x) :
    i ∈ l ∨ i = x := by
  unfold setInsert at h
  by_cases hx : x ∈ l
  · rw [if_pos hx] at h; exact Or.inl h
  · rw [if_neg hx] at h
    rcases List.mem_append.mp h with h1 | h1
    · exact Or.inl h1
    · exact Or.inr (List.mem_singleton.mp h1)

theorem invIds_inv_bmUpdate (m : BatchMap) (k : BatchKey) (q : Int) (o : Option String)
    (P : String → Prop) (h : ∀ e ∈ m, ∀ i ∈ e.2.invoiceIds, P i)
    (ho : ∀ j, o = some j → P j) : ∀ e ∈ bmUpdate m k q o, ∀ i ∈ e.2.invoiceIds, P i := by
  induction m with
  | nil =>
      intro e he i hi
      simp only [bmUpdate, List.mem_singleton] at he
      subst he
      cases o with
      | none => simp at hi
      | some j =>
          simp only [List.mem_singleton] at hi
          exact hi ▸ ho j rfl
  | cons hd m ih =>
      obtain ⟨k₀, a⟩ := hd
      intro e he i hi
      by_cases hk : k₀ = k
      · rw [show bmUpdate ((k₀, a) :: m) k q o = if k₀ = k then _ :: m else
            (k₀, a) :: bmUpdate m k q o from rfl, if_pos hk] at he
        rcases List.mem_cons.mp he with h1 | h1
        · subst h1
          cases o with
          | none => exact h (k₀, a) (List.mem_cons_self _ _) i hi
          | some j =>
              simp only at hi
              rcases mem_setInsert hi with h2 | h2
              · exact h (k₀, a) (List.mem_cons_self _ _) i h2
              · exact h2 ▸ ho j rfl
        · exact h e (List.mem_cons_of_mem _ h1) i hi
      · rw [show bmUpdate ((k₀, a) :: m) k q o = if k₀ = k then _ :: m else
            (k₀, a) :: bmUpdate m k q o from rfl, if_neg hk] at he
        rcases List.mem_cons.mp he with h1 | h1
        · subst h1
          exact h (k₀, a) (List.mem_cons_self _ _) i hi
        · exact ih (fun e' he' => h e' (List.mem_cons_of_mem _ he')) e h1 i hi

/-- With duplicate-free keys, a member entry is the one `find?` returns. -/
theorem bmQty_of_mem {m : BatchMap} (hnd : (bmKeys m).Nodup) {k : BatchKey} {a : BatchAcc}
    (hmem : (k, a) ∈ m) : bmQty m k = a.quantity := by
  induction m with
  | nil => simp at hmem
  | cons hd m ih =>
      obtain ⟨k₀, a₀⟩ := hd
      rcases List.mem_cons.mp hmem with h1 | h1
      · injection h1 with hk2 ha2
        subst hk2
        rw [bmQty_cons, if_pos rfl, ha2]
      · have hk₀ : k₀ ≠ k := by
          intro hq
          subst hq
          exact (List.nodup_cons.mp hnd).1
            (List.mem_map.mpr ⟨(k₀, a), h1, rfl⟩)
        rw [bmQty_cons, if_neg hk₀]
        exact ih (List.nodup_cons.mp hnd).2 h1

end Medlab

namespace Medlab

/-! ### Exit-map characterization -/

theorem exGet_nil (d : String) : exGet [] d = 0 := rfl

theorem exGet_cons (d₀ : String) (v : Int) (m : ExitMap) (d : String) :
    exGet ((d₀, v) :: m) d = if d₀ = d then v else exGet m d := by
  by_cases h : d₀ = d
  · simp [exGet, List.find?, h]
  · simp [exGet, List.find?, h]

theorem exGet_exUpdate (m : ExitMap) (d d' : String) (q : Int) :
    exGet (exUpdate m d q) d' = exGet m d' + if d = d' then q else 0 := by
  induction m with
  | nil =>
      by_cases h : d = d'
      · show exGet [(d, q)] d' = 0 + if d = d' then q else 0
        rw [exGet_cons, if_pos h, if_pos h, zero_add]
      · show exGet [(d, q)] d' = 0 + if d = d' then q else 0
        rw [exGet_cons, if_neg h, if_neg h, exGet_nil, zero_add]
  | cons hd m ih =>
      obtain ⟨d₀, v⟩ := hd
      by_cases hk : d₀ = d
      · subst hk
        unfold exUpdate
        rw [if_pos rfl, exGet_cons, exGet_cons]
        by_cases h' : d₀ = d'
        · rw [if_pos h', if_pos h', if_pos h']
        · rw [if_neg h', if_neg h', if_neg h', add_zero]
      · unfold exUpdate
        rw [if_neg hk, exGet_cons, exGet_cons]
        by_cases h' : d₀ = d'
        · have hne : ¬ d = d' := fun h => hk (h ▸ h'.symm ▸ rfl)
          rw [if_pos h', if_pos h', if_neg hne, add_zero]
        · rw [if_neg h', if_neg h', ih]

theorem exGet_foldl_souts (l : List StockOutItem) (m0 : ExitMap) (d : String) :
    exGet (l.foldl (fun m x => exUpdate m x.batch_date x.quantity) m0) d =
      exGet m0 d + ((l.filter (fun x => x.batch_date == d)).map StockOutItem.quantity).sum := by
  induction l generalizing m0 with
  | nil => simp
  | cons x l ih =>
      rw [List.foldl_cons, ih, exGet_exUpdate]
      by_cases h : x.batch_date = d
      · rw [if_pos h, List.filter_cons_of_pos (by simp [h]), List.map_cons, List.sum_cons]
        ring
      · rw [if_neg h, List.filter_cons_of_neg (by simp [h]), add_zero]

theorem exGet_foldl_tout (l : List TransferItem) (m0 : ExitMap) (d : String) :
    exGet (l.foldl (fun m x => exUpdate m x.batch_date x.quantity) m0) d =
      exGet m0 d + ((l.filter (fun x => x.batch_date == d)).map TransferItem.quantity).sum := by
  induction l generalizing m0 with
  | nil => simp
  | cons x l ih =>
      rw [List.foldl_cons, ih, exGet_exUpdate]
      by_cases h : x.batch_date = d
      · rw [if_pos h, List.filter_cons_of_pos (by simp [h]), List.map_cons, List.sum_cons]
        ring
      · rw [if_neg h, List.filter_cons_of_neg (by simp [h]), add_zero]

/-- The JS `exitMap` lookup is exactly the per-date decrease total. -/
theorem exGet_buildExitMap (souts : List StockOutItem) (tout : List TransferItem) (d : String) :
    exGet (buildExitMap souts tout) d = exitSumAt souts tout d := by
  unfold buildExitMap exitSumAt
  rw [exGet_foldl_tout, exGet_foldl_souts, exGet_nil, zero_add]

/-! ### Batch-map characterization -/

theorem bmQty_foldl_entries (l : List InvoiceItem) (m0 : BatchMap) (k : BatchKey) :
    bmQty (l.foldl
        (fun m e => bmUpdate m (e.batch_date, e.unit_price) e.quantity (some e.invoice_id)) m0) k
      = bmQty m0 k
        + ((l.filter (fun e => e.batch_date == k.1 && e.unit_price == k.2)).map
            InvoiceItem.quantity).sum := by
  induction l generalizing m0 with
  | nil => simp
  | cons e l ih =>
      rw [List.foldl_cons, ih, bmQty_bmUpdate]
      by_cases h : (e.batch_date, e.unit_price) = k
      · have h1 : e.batch_date = k.1 := by rw [← h]
        have h2 : e.unit_price = k.2 := by rw [← h]
        rw [if_pos h.symm, List.filter_cons_of_pos (by simp [h1, h2]),
          List.map_cons, List.sum_cons]
        ring
      · have hne : ¬ k = (e.batch_date, e.unit_price) := fun hh => h hh.symm
        rw [if_neg hne, add_zero,
          List.filter_cons_of_neg (by
            simp only [Bool.and_eq_true, beq_iff_eq, not_and]
            intro h1 h2
            exact h (Prod.ext h1 h2))]

theorem bmQty_foldl_tin (l : List TransferItem) (m0 : BatchMap) (k : BatchKey) :
    bmQty (l.foldl (fun m t => bmUpdate m (t.batch_date, t.unit_price) t.quantity none) m0) k
      = bmQty m0 k
        + ((l.filter (fun t => t.batch_date == k.1 && t.unit_price == k.2)).map
            TransferItem.quantity).sum := by
  induction l generalizing m0 with
  | nil => simp
  | cons t l ih =>
      rw [List.foldl_cons, ih, bmQty_bmUpdate]
      by_cases h : (t.batch_date, t.unit_price) = k
      · have h1 : t.batch_date = k.1 := by rw [← h]
        have h2 : t.unit_price = k.2 := by rw [← h]
        rw [if_pos h.symm, List.filter_cons_of_pos (by simp [h1, h2]),
          List.map_cons, List.sum_cons]
        ring
      · have hne : ¬ k = (t.batch_date, t.unit_price) := fun hh => h hh.symm
        rw [if_neg hne, add_zero,
          List.filter_cons_of_neg (by
            simp only [Bool.and_eq_true, beq_iff_eq, not_and]
            intro h1 h2
            exact h (Prod.ext h1 h2))]

/-- The accumulated bucket quantity is exactly the per-(date, price)
increase total. -/
theorem bmQty_buildBatchMap (es : List InvoiceItem) (ts : List TransferItem) (k : BatchKey) :
    bmQty (buildBatchMap es ts) k = incSumAt es ts k.1 k.2 := by
  unfold buildBatchMap incSumAt
  rw [bmQty_foldl_tin, bmQty_foldl_entries, bmQty_nil, zero_add]

end Medlab

namespace Medlab

theorem bmKeys_nodup_foldl_entries (l : List InvoiceItem) (m0 : BatchMap)
    (h : (bmKeys m0).Nodup) :
    (bmKeys (l.foldl
      (fun m e => bmUpdate m (e.batch_date, e.unit_price) e.quantity (some e.invoice_id))
      m0)).Nodup := by
  induction l generalizing m0 with
  | nil => exact h
  | cons e l ih => exact ih _ (bmKeys_nodup_bmUpdate _ _ _ _ h)

theorem bmKeys_nodup_foldl_tin (l : List TransferItem) (m0 : BatchMap)
    (h : (bmKeys m0).Nodup) :
    (bmKeys (l.foldl
      (fun m t => bmUpdate m (t.batch_date, t.unit_price) t.quantity none) m0)).Nodup := by
  induction l generalizing m0 with
  | nil => exact h
  | cons t l ih => exact ih _ (bmKeys_nodup_bmUpdate _ _ _ _ h)

/-- The batch map never holds two entries with the same key. -/
theorem bmKeys_nodup_buildBatchMap (es : List InvoiceItem) (ts : List TransferItem) :
    (bmKeys (buildBatchMap es ts)).Nodup := by
  unfold buildBatchMap
  exact bmKeys_nodup_foldl_tin _ _ (bmKeys_nodup_foldl_entries _ _ List.nodup_nil)

theorem bmKeys_foldl_entries_subset (l : List InvoiceItem) (m0 : BatchMap) :
    bmKeys (l.foldl
        (fun m e => bmUpdate m (e.batch_date, e.unit_price) e.quantity (some e.invoice_id)) m0)
      ⊆ bmKeys m0 ++ l.map (fun e => (e.batch_date, e.unit_price)) := by
  induction l generalizing m0 with
  | nil => simp
  | cons e l ih =>
      intro k hk
      rcases List.mem_append.mp (ih _ hk) with h1 | h1
      · rcases List.mem_append.mp (bmKeys_subset_bmUpdate _ _ _ _ h1) with h2 | h2
        · exact List.mem_append_left _ h2
        · rw [List.mem_singleton.mp h2]
          exact List.mem_append_right _ (List.mem_cons_self _ _)
      · exact List.mem_append_right _ (List.mem_cons_of_mem _ h1)

theorem bmKeys_foldl_tin_subset (l : List TransferItem) (m0 : BatchMap) :
    bmKeys (l.foldl (fun m t => bmUpdate m (t.batch_date, t.unit_price) t.quantity none) m0)
      ⊆ bmKeys m0 ++ l.map (fun t => (t.batch_date, t.unit_price)) := by
  induction l generalizing m0 with
  | nil => simp
  | cons t l ih =>
      intro k hk
      rcases List.mem_append.mp (ih _ hk) with h1 | h1
      · rcases List.mem_append.mp (bmKeys_subset_bmUpdate _ _ _ _ h1) with h2 | h2
        · exact List.mem_append_left _ h2
        · rw [List.mem_singleton.mp h2]
          exact List.mem_append_right _ (List.mem_cons_self _ _)
      · exact List.mem_append_right _ (List.mem_cons_of_mem _ h1)

/-- Every key held by the batch map is the key of some increase event. -/
theorem bmKeys_buildBatchMap_subset (es : List InvoiceItem) (ts : List TransferItem) :
    bmKeys (buildBatchMap es ts) ⊆ recKeys es ts := by
  unfold buildBatchMap recKeys
  intro k hk
  rcases List.mem_append.mp (bmKeys_foldl_tin_subset _ _ hk) with h1 | h1
  · rcases List.mem_append.mp (bmKeys_foldl_entries_subset _ _ h1) with h2 | h2
    · simp [bmKeys] at h2
    · exact List.mem_append_left _ h2
  · exact List.mem_append_right _ h1

theorem bmKeys_foldl_entries_mono (l : List InvoiceItem) (m0 : BatchMap) :
    bmKeys m0 ⊆ bmKeys (l.foldl
      (fun m e => bmUpdate m (e.batch_date, e.unit_price) e.quantity (some e.invoice_id)) m0) := by
  induction l generalizing m0 with
  | nil => exact fun x hx => hx
  | cons e l ih =>
      intro k hk
      exact ih _ (bmKeys_mono_bmUpdate _ _ _ _ hk)

theorem bmKeys_foldl_tin_mono (l : List TransferItem) (m0 : BatchMap) :
    bmKeys m0 ⊆ bmKeys (l.foldl
      (fun m t => bmUpdate m (t.batch_date, t.unit_price) t.quantity none) m0) := by
  induction l generalizing m0 with
  | nil => exact fun x hx => hx
  | cons t l ih =>
      intro k hk
      exact ih _ (bmKeys_mono_bmUpdate _ _ _ _ hk)

theorem mem_bmKeys_foldl_entries (l : List InvoiceItem) (m0 : BatchMap) {k : BatchKey}
    (hk : k ∈ l.map (fun e => (e.batch_date, e.unit_price))) :
    k ∈ bmKeys (l.foldl
      (fun m e => bmUpdate m (e.batch_date, e.unit_price) e.quantity (some e.invoice_id)) m0) := by
  induction l generalizing m0 with
  | nil => simp at hk
  | cons e l ih =>
      rcases List.mem_cons.mp hk with h1 | h1
      · rw [List.foldl_cons]
        subst h1
        exact bmKeys_foldl_entries_mono _ _ (mem_bmKeys_bmUpdate _ _ _ _)
      · exact ih _ h1

theorem mem_bmKeys_foldl_tin (l : List TransferItem) (m0 : BatchMap) {k : BatchKey}
    (hk : k ∈ l.map (fun t => (t.batch_date, t.unit_price))) :
    k ∈ bmKeys (l.foldl
      (fun m t => bmUpdate m (t.batch_date, t.unit_price) t.quantity none) m0) := by
  induction l generalizing m0 with
  | nil => simp at hk
  | cons t l ih =>
      rcases List.mem_cons.mp hk with h1 | h1
      · rw [List.foldl_cons]
        subst h1
        exact bmKeys_foldl_tin_mono _ _ (mem_bmKeys_bmUpdate _ _ _ _)
      · exact ih _ h1

/-- Every increase-event key reaches the batch map. -/
theorem mem_bmKeys_buildBatchMap (es : List InvoiceItem) (ts : List TransferItem) {k : BatchKey}
    (hk : k ∈ recKeys es ts) : k ∈ bmKeys (buildBatchMap es ts) := by
  unfold buildBatchMap
  rcases List.mem_append.mp hk with h1 | h1
  · exact bmKeys_foldl_tin_mono _ _ (mem_bmKeys_foldl_entries _ _ h1)
  · exact mem_bmKeys_foldl_tin _ _ h1

/-- Every batch-map entry stores its own key's price. -/
theorem price_inv_buildBatchMap (es : List InvoiceItem) (ts : List TransferItem) :
    ∀ e ∈ buildBatchMap es ts, e.2.price = e.1.2 := by
  unfold buildBatchMap
  have h1 : ∀ (l : List InvoiceItem) (m0 : BatchMap), (∀ e ∈ m0, e.2.price = e.1.2) →
      ∀ e ∈ l.foldl
        (fun m e => bmUpdate m (e.batch_date, e.unit_price) e.quantity (some e.invoice_id)) m0,
        e.2.price = e.1.2 := by
    intro l
    induction l with
    | nil => exact fun m0 h => h
    | cons e l ih => exact fun m0 h => ih _ (price_inv_bmUpdate _ _ _ _ h)
  have h2 : ∀ (l : List TransferItem) (m0 : BatchMap), (∀ e ∈ m0, e.2.price = e.1.2) →
      ∀ e ∈ l.foldl (fun m t => bmUpdate m (t.batch_date, t.unit_price) t.quantity none) m0,
        e.2.price = e.1.2 := by
    intro l
    induction l with
    | nil => exact fun m0 h => h
    | cons t l ih => exact fun m0 h => ih _ (price_inv_bmUpdate _ _ _ _ h)
  exact h2 _ _ (h1 _ _ (by simp))

/-- Every invoice id stored in a bucket is the invoice id of one of the
invoice entries the map was built from. -/
theorem invIds_buildBatchMap (es : List InvoiceItem) (ts : List TransferItem) :
    ∀ e ∈ buildBatchMap es ts, ∀ i ∈ e.2.invoiceIds, i ∈ es.map InvoiceItem.invoice_id := by
  unfold buildBatchMap
  have h1 : ∀ (l : List InvoiceItem) (m0 : BatchMap),
      (∀ e ∈ m0, ∀ i ∈ e.2.invoiceIds, i ∈ es.map InvoiceItem.invoice_id) →
      (∀ e ∈ l, e.invoice_id ∈ es.map InvoiceItem.invoice_id) →
      ∀ e ∈ l.foldl
        (fun m e => bmUpdate m (e.batch_date, e.unit_price) e.quantity (some e.invoice_id)) m0,
        ∀ i ∈ e.2.invoiceIds, i ∈ es.map InvoiceItem.invoice_id := by
    intro l
    induction l with
    | nil => exact fun m0 h _ => h
    | cons e l ih =>
        intro m0 h hl
        refine ih _ (invIds_inv_bmUpdate _ _ _ _ _ h ?_)
          (fun e' he' => hl e' (List.mem_cons_of_mem _ he'))
        intro j hj
        injection hj with hj'
        exact hj' ▸ hl e (List.mem_cons_self _ _)
  have h2 : ∀ (l : List TransferItem) (m0 : BatchMap),
      (∀ e ∈ m0, ∀ i ∈ e.2.invoiceIds, i ∈ es.map InvoiceItem.invoice_id) →
      ∀ e ∈ l.foldl (fun m t => bmUpdate m (t.batch_date, t.unit_price) t.quantity none) m0,
        ∀ i ∈ e.2.invoiceIds, i ∈ es.map InvoiceItem.invoice_id := by
    intro l
    induction l with
    | nil => exact fun m0 h => h
    | cons t l ih =>
        intro m0 h
        exact ih _ (invIds_inv_bmUpdate _ _ _ _ _ h (fun j hj => by cases hj))
  exact h2 _ _ (h1 _ _ (by simp) (fun e he => List.mem_map.mpr ⟨e, he, rfl⟩))

end Medlab

namespace Medlab

/-! ### Emission lemmas -/

theorem emitBatches_nil (r : List String → String) (em : ExitMap) :
    emitBatches r em [] = [] := rfl

theorem emitBatches_cons (r : List String → String) (em : ExitMap) (k : BatchKey)
    (a : BatchAcc) (m : BatchMap) :
    emitBatches r em ((k, a) :: m) =
      if 0 < a.quantity - exGet em k.1 then
        { batch_date := k.1, quantity := a.quantity - exGet em k.1, unit_price := a.price,
          total_price := (a.quantity - exGet em k.1) * a.price,
          supplier := r a.invoiceIds } :: emitBatches r em m
      else emitBatches r em m := rfl

/-- `totalQuantity` accumulates the positive part of each bucket's net. -/
theorem emit_sum_quantity (r : List String → String) (em : ExitMap) (m : BatchMap) :
    ((emitBatches r em m).map BatchOut.quantity).sum =
      (m.map (fun e => posPart (e.2.quantity - exGet em e.1.1))).sum := by
  induction m with
  | nil => simp [emitBatches_nil]
  | cons e m ih =>
      obtain ⟨k, a⟩ := e
      rw [emitBatches_cons, List.map_cons, List.sum_cons]
      by_cases h : 0 < a.quantity - exGet em k.1
      · rw [if_pos h, List.map_cons, List.sum_cons, ih, posPart_of_pos h]
      · rw [if_neg h, ih, posPart_of_nonpos (not_lt.mp h), zero_add]

/-- Every emitted batch has strictly positive quantity. -/
theorem emit_all_pos (r : List String → String) (em : ExitMap) (m : BatchMap) :
    ∀ b ∈ emitBatches r em m, 0 < b.quantity := by
  induction m with
  | nil => simp [emitBatches_nil]
  | cons e m ih =>
      obtain ⟨k, a⟩ := e
      intro b hb
      rw [emitBatches_cons] at hb
      by_cases h : 0 < a.quantity - exGet em k.1
      · rw [if_pos h] at hb
        rcases List.mem_cons.mp hb with h1 | h1
        · rw [h1]; exact h
        · exact ih b h1
      · rw [if_neg h] at hb
        exact ih b hb

/-- Every emitted batch carries `total_price = quantity * unit_price`. -/
theorem emit_total_price (r : List String → String) (em : ExitMap) (m : BatchMap) :
    ∀ b ∈ emitBatches r em m, b.total_price = b.quantity * b.unit_price := by
  induction m with
  | nil => simp [emitBatches_nil]
  | cons e m ih =>
      obtain ⟨k, a⟩ := e
      intro b hb
      rw [emitBatches_cons] at hb
      by_cases h : 0 < a.quantity - exGet em k.1
      · rw [if_pos h] at hb
        rcases List.mem_cons.mp hb with h1 | h1
        · rw [h1]
        · exact ih b h1
      · rw [if_neg h] at hb
        exact ih b hb

/-- Membership characterization of the emitted (pre-sort) batch list. -/
theorem emit_mem (r : List String → String) (em : ExitMap) (m : BatchMap) (b : BatchOut) :
    b ∈ emitBatches r em m ↔ ∃ e ∈ m, 0 < e.2.quantity - exGet em e.1.1 ∧
      b = { batch_date := e.1.1, quantity := e.2.quantity - exGet em e.1.1,
            unit_price := e.2.price,
            total_price := (e.2.quantity - exGet em e.1.1) * e.2.price,
            supplier := r e.2.invoiceIds } := by
  induction m with
  | nil => simp [emitBatches_nil]
  | cons e m ih =>
      obtain ⟨k, a⟩ := e
      rw [emitBatches_cons]
      by_cases h : 0 < a.quantity - exGet em k.1
      · rw [if_pos h]
        constructor
        · intro hb
          rcases List.mem_cons.mp hb with h1 | h1
          · exact ⟨(k, a), List.mem_cons_self _ _, h, h1⟩
          · obtain ⟨e', he', hpos, heq⟩ := ih.mp h1
            exact ⟨e', List.mem_cons_of_mem _ he', hpos, heq⟩
        · rintro ⟨e', he', hpos, heq⟩
          rcases List.mem_cons.mp he' with h1 | h1
          · subst h1
            rw [heq]
            exact List.mem_cons_self _ _
          · exact List.mem_cons_of_mem _ (ih.mpr ⟨e', h1, hpos, heq⟩)
      · rw [if_neg h]
        constructor
        · intro hb
          obtain ⟨e', he', hpos, heq⟩ := ih.mp hb
          exact ⟨e', List.mem_cons_of_mem _ he', hpos, heq⟩
        · rintro ⟨e', he', hpos, heq⟩
          rcases List.mem_cons.mp he' with h1 | h1
          · subst h1
            exact absurd hpos h
          · exact ih.mpr ⟨e', h1, hpos, heq⟩

/-- The emission ignores the supplier resolver except for the `supplier`
field; two resolvers agreeing on every bucket's id list emit identically. -/
theorem emit_congr (r₁ r₂ : List String → String) (em : ExitMap) (m : BatchMap)
    (h : ∀ e ∈ m, r₁ e.2.invoiceIds = r₂ e.2.invoiceIds) :
    emitBatches r₁ em m = emitBatches r₂ em m := by
  induction m with
  | nil => rfl
  | cons e m ih =>
      obtain ⟨k, a⟩ := e
      rw [emitBatches_cons, emitBatches_cons,
        h (k, a) (List.mem_cons_self _ _),
        ih (fun e' he' => h e' (List.mem_cons_of_mem _ he'))]

/-! ### Sorting lemmas -/

theorem insBatch_perm (x : BatchOut) (l : List BatchOut) :
    List.Perm (insBatch x l) (x :: l) := by
  induction l with
  | nil => exact List.Perm.refl _
  | cons y l ih =>
      unfold insBatch
      by_cases h : y.batch_date < x.batch_date
      · rw [if_pos h]
      · rw [if_neg h]
        exact (ih.cons y).trans (List.Perm.swap x y l)

theorem sortBatches_perm (l : List BatchOut) : List.Perm (sortBatches l) l := by
  have h : ∀ (l acc : List BatchOut),
      List.Perm (l.foldl (fun acc x => insBatch x acc) acc) (l ++ acc) := by
    intro l
    induction l with
    | nil => intro acc; simp
    | cons x l ih =>
        intro acc
        have h1 := ih (insBatch x acc)
        have h2 : List.Perm (l ++ insBatch x acc) (l ++ (x :: acc)) :=
          List.Perm.append_left l (insBatch_perm x acc)
        have h3 : List.Perm (l ++ (x :: acc)) (x :: (l ++ acc)) := List.perm_middle
        exact (h1.trans (h2.trans h3))
  have h0 := h l []
  rw [List.append_nil] at h0
  exact h0

theorem insBatch_pairwise (x : BatchOut) (l : List BatchOut)
    (h : l.Pairwise (fun a b => b.batch_date ≤ a.batch_date)) :
    (insBatch x l).Pairwise (fun a b => b.batch_date ≤ a.batch_date) := by
  induction l with
  | nil => simp [insBatch]
  | cons y l ih =>
      unfold insBatch
      by_cases hlt : y.batch_date < x.batch_date
      · rw [if_pos hlt]
        refine List.Pairwise.cons ?_ h
        intro z hz
        rcases List.mem_cons.mp hz with h1 | h1
        · rw [h1]; exact le_of_lt hlt
        · exact le_trans ((List.pairwise_cons.mp h).1 z h1) (le_of_lt hlt)
      · rw [if_neg hlt]
        obtain ⟨hy, hl⟩ := List.pairwise_cons.mp h
        refine List.Pairwise.cons ?_ (ih hl)
        intro z hz
        have h1 : z ∈ x :: l := (insBatch_perm x l).mem_iff.mp hz
        rcases List.mem_cons.mp h1 with h2 | h2
        · rw [h2]; exact not_lt.mp hlt
        · exact hy z h2

theorem sortBatches_pairwise (l : List BatchOut) :
    (sortBatches l).Pairwise (fun a b => b.batch_date ≤ a.batch_date) := by
  have h : ∀ (l acc : List BatchOut),
      acc.Pairwise (fun a b => b.batch_date ≤ a.batch_date) →
      (l.foldl (fun acc x => insBatch x acc) acc).Pairwise
        (fun a b => b.batch_date ≤ a.batch_date) := by
    intro l
    induction l with
    | nil => exact fun acc h => h
    | cons x l ih => exact fun acc hacc => ih _ (insBatch_pairwise x acc hacc)
  exact h l [] List.Pairwise.nil

end Medlab

namespace Medlab

/-! ### Sum helpers -/

theorem sum_map_add {α : Type} (l : List α) (f g : α → Int) :
    (l.map (fun x => f x + g x)).sum = (l.map f).sum + (l.map g).sum := by
  induction l with
  | nil => simp
  | cons x l ih => simp [ih]; ring

theorem sum_map_sub {α : Type} (l : List α) (f g : α → Int) :
    (l.map (fun x => f x - g x)).sum = (l.map f).sum - (l.map g).sum := by
  induction l with
  | nil => simp
  | cons x l ih => simp [ih]; ring

theorem sum_map_congr {α : Type} {l : List α} {f g : α → Int}
    (h : ∀ x ∈ l, f x = g x) : (l.map f).sum = (l.map g).sum := by
  induction l with
  | nil => rfl
  | cons x l ih =>
      rw [List.map_cons, List.map_cons, List.sum_cons, List.sum_cons,
        h x (List.mem_cons_self _ _), ih (fun y hy => h y (List.mem_cons_of_mem _ hy))]

/-- Summing an indicator over a duplicate-free list. -/
theorem sum_map_indicator {κ : Type} [DecidableEq κ] (K : List κ) (hK : K.Nodup)
    (k0 : κ) (c : Int) :
    (K.map (fun k => if k0 = k then c else 0)).sum = if k0 ∈ K then c else 0 := by
  induction K with
  | nil => simp
  | cons k K ih =>
      obtain ⟨hk, hnd⟩ := List.nodup_cons.mp hK
      rw [List.map_cons, List.sum_cons, ih hnd]
      by_cases h : k0 = k
      · subst h
        rw [if_pos rfl, if_neg hk, if_pos (List.mem_cons_self _ _), add_zero]
      · rw [if_neg h]
        by_cases hmem : k0 ∈ K
        · rw [if_pos hmem, if_pos (List.mem_cons_of_mem _ hmem), zero_add]
        · rw [if_neg hmem, if_neg (by simp [List.mem_cons, h, hmem]), zero_add]

/-- Partitioning a sum over events by a duplicate-free key list that covers
every event's key. -/
theorem sum_partition {α κ : Type} [DecidableEq κ] [BEq κ] [LawfulBEq κ]
    (K : List κ) (hK : K.Nodup)
    (l : List α) (key : α → κ) (wt : α → Int) (hcov : ∀ x ∈ l, key x ∈ K) :
    (K.map (fun k => ((l.filter (fun x => key x == k)).map wt).sum)).sum =
      (l.map wt).sum := by
  induction l with
  | nil => simp
  | cons x l ih =>
      have hstep : ∀ k : κ, (((x :: l).filter (fun y => key y == k)).map wt).sum =
          (if key x = k then wt x else 0) + ((l.filter (fun y => key y == k)).map wt).sum := by
        intro k
        by_cases h : key x = k
        · rw [List.filter_cons_of_pos (by simp [h]), List.map_cons, List.sum_cons, if_pos h]
        · rw [List.filter_cons_of_neg (by simp [h]), if_neg h, zero_add]
      rw [sum_map_congr (fun k _ => hstep k), sum_map_add,
        sum_map_indicator K hK (key x) (wt x),
        if_pos (hcov x (List.mem_cons_self _ _)),
        ih (fun y hy => hcov y (List.mem_cons_of_mem _ hy)),
        List.map_cons, List.sum_cons]

/-- Changing an association list's image at the single entry with key `k0`
shifts the mapped sum by the delta at that entry. -/
theorem sum_map_delta_at (m : BatchMap) (hnd : (bmKeys m).Nodup) (k0 : BatchKey)
    (a0 : BatchAcc) (hmem : (k0, a0) ∈ m) (F G : BatchKey × BatchAcc → Int)
    (hagree : ∀ e ∈ m, e.1 ≠ k0 → G e = F e) :
    (m.map G).sum = (m.map F).sum + (G (k0, a0) - F (k0, a0)) := by
  induction m with
  | nil => simp at hmem
  | cons e m ih =>
      obtain ⟨k, a⟩ := e
      obtain ⟨hknotin, hnd'⟩ := List.nodup_cons.mp hnd
      rcases List.mem_cons.mp hmem with h1 | h1
      · injection h1 with hk ha
        subst hk; subst ha
        rw [List.map_cons, List.map_cons, List.sum_cons, List.sum_cons,
          sum_map_congr (fun e (he : e ∈ m) => hagree e (List.mem_cons_of_mem _ he)
            (fun hek => hknotin (hek ▸ List.mem_map.mpr ⟨e, he, rfl⟩)))]
        ring
      · have hkne : k ≠ k0 := by
          intro h
          subst h
          exact hknotin (List.mem_map.mpr ⟨(k, a0), h1, rfl⟩)
        rw [List.map_cons, List.map_cons, List.sum_cons, List.sum_cons,
          hagree (k, a) (List.mem_cons_self _ _) hkne,
          ih hnd' h1 (fun e he hek => hagree e (List.mem_cons_of_mem _ he) hek)]
        ring

/-- Updating an existing key bumps exactly that entry's quantity. -/
theorem sum_map_bmUpdate_mem (m : BatchMap) (hnd : (bmKeys m).Nodup)
    (k0 : BatchKey) (a0 : BatchAcc) (hmem : (k0, a0) ∈ m) (q : Int)
    (F : BatchKey × BatchAcc → Int) :
    ((bmUpdate m k0 q none).map F).sum =
      (m.map F).sum
        + (F (k0, { quantity := a0.quantity + q, price := a0.price,
                    invoiceIds := a0.invoiceIds }) - F (k0, a0)) := by
  induction m with
  | nil => simp at hmem
  | cons e m ih =>
      obtain ⟨k, a⟩ := e
      obtain ⟨hknotin, hnd'⟩ := List.nodup_cons.mp hnd
      rcases List.mem_cons.mp hmem with h1 | h1
      · injection h1 with hk ha
        subst hk; subst ha
        unfold bmUpdate
        rw [if_pos rfl, List.map_cons, List.map_cons, List.sum_cons, List.sum_cons]
        ring
      · have hkne : ¬ k = k0 := by
          intro h
          subst h
          exact hknotin (List.mem_map.mpr ⟨(k, a0), h1, rfl⟩)
        unfold bmUpdate
        rw [if_neg hkne, List.map_cons, List.map_cons, List.sum_cons, List.sum_cons,
          ih hnd' h1]
        ring

/-- Updating a fresh key appends a new bucket at the end. -/
theorem bmUpdate_not_mem (m : BatchMap) (k0 : BatchKey) (q : Int)
    (hk : k0 ∉ bmKeys m) :
    bmUpdate m k0 q none = m ++ [(k0, { quantity := q, price := k0.2, invoiceIds := [] })] := by
  induction m with
  | nil => rfl
  | cons e m ih =>
      obtain ⟨k, a⟩ := e
      have hkne : ¬ k = k0 := by
        intro h
        exact hk (h ▸ List.mem_cons_self _ _)
      unfold bmUpdate
      rw [if_neg hkne, ih (fun h => hk (List.mem_cons_of_mem _ h)), List.cons_append]

end Medlab

namespace Medlab

/-! ### Bridging `assembleStock` to the accumulator characterizations -/

theorem assemble_batches (r : List String → String) (es : List InvoiceItem)
    (tin : List TransferItem) (souts : List StockOutItem) (tout : List TransferItem) :
    (assembleStock r es tin souts tout).batches =
      sortBatches (emitBatches r (buildExitMap souts tout) (buildBatchMap es tin)) := rfl

theorem assemble_totalQuantity_eq_emit (r : List String → String) (es : List InvoiceItem)
    (tin : List TransferItem) (souts : List StockOutItem) (tout : List TransferItem) :
    (assembleStock r es tin souts tout).totalQuantity =
      ((emitBatches r (buildExitMap souts tout) (buildBatchMap es tin)).map
        BatchOut.quantity).sum := rfl

theorem assemble_totalValue_eq_emit (r : List String → String) (es : List InvoiceItem)
    (tin : List TransferItem) (souts : List StockOutItem) (tout : List TransferItem) :
    (assembleStock r es tin souts tout).totalValue =
      ((emitBatches r (buildExitMap souts tout) (buildBatchMap es tin)).map
        BatchOut.total_price).sum := rfl

theorem assemble_totalQuantity (r : List String → String) (es : List InvoiceItem)
    (tin : List TransferItem) (souts : List StockOutItem) (tout : List TransferItem) :
    (assembleStock r es tin souts tout).totalQuantity =
      ((buildBatchMap es tin).map
        (fun e => posPart (e.2.quantity - exitSumAt souts tout e.1.1))).sum := by
  show ((emitBatches r (buildExitMap souts tout) (buildBatchMap es tin)).map
    BatchOut.quantity).sum = _
  rw [emit_sum_quantity]
  exact sum_map_congr (fun e _ => by rw [exGet_buildExitMap])

theorem assemble_totalQuantity_nonneg (r : List String → String) (es : List InvoiceItem)
    (tin : List TransferItem) (souts : List StockOutItem) (tout : List TransferItem) :
    0 ≤ (assembleStock r es tin souts tout).totalQuantity := by
  rw [assemble_totalQuantity]
  refine List.sum_nonneg ?_
  intro x hx
  obtain ⟨e, _, he⟩ := List.mem_map.mp hx
  exact he ▸ posPart_nonneg _

theorem assemble_mem_batches (r : List String → String) (es : List InvoiceItem)
    (tin : List TransferItem) (souts : List StockOutItem) (tout : List TransferItem)
    (b : BatchOut) :
    b ∈ (assembleStock r es tin souts tout).batches ↔
      b ∈ emitBatches r (buildExitMap souts tout) (buildBatchMap es tin) := by
  rw [assemble_batches]
  exact (sortBatches_perm _).mem_iff

/-- The public total of `calculateProductStockInWarehouse` never goes
negative: every emitted bucket contributes its strictly positive net. -/
theorem calculate_totalQuantity_nonneg (db : DB) (warehouseId productId : String)
    (productType : ProductType) :
    0 ≤ (calculateProductStockInWarehouse db warehouseId productId productType).totalQuantity :=
  assemble_totalQuantity_nonneg _ _ _ _ _

end Medlab

namespace Medlab

theorem flatMap_nil_of_forall {α β : Type} (l : List α) (f : α → List β)
    (h : ∀ x ∈ l, f x = []) : l.flatMap f = [] := by
  induction l with
  | nil => rfl
  | cons x l ih =>
      rw [List.flatMap_cons, h x (List.mem_cons_self _ _), List.nil_append,
        ih (fun y hy => h y (List.mem_cons_of_mem _ hy))]

theorem filterMap_nil_of_forall {α β : Type} (l : List α) (f : α → Option β)
    (h : ∀ x ∈ l, f x = none) : l.filterMap f = [] := by
  induction l with
  | nil => rfl
  | cons x l ih =>
      rw [List.filterMap_cons, h x (List.mem_cons_self _ _),
        ih (fun y hy => h y (List.mem_cons_of_mem _ hy))]

/-! ## Concrete fixtures

`exampleDB` is the spec's §8 example scenario: warehouse `W1` holds one
active invoice from "Acme" with a single line of product `P1` (100 units at
5.00, batch `2024-01-10`).  `exampleDB1` is the snapshot after dispatching a
transfer of 30 units to `W2` dated `2024-01-15` through the transfer flow. -/

def exampleDB : DB :=
  { warehouses := [⟨"W1", "Warehouse 1", "WH001"⟩, ⟨"W2", "Warehouse 2", "WH002"⟩]
    reagents := [⟨"P1", "R001", "Reagent 1"⟩]
    consumables := []
    invoices := [⟨"inv1", "Acme", "W1", "active"⟩]
    invoice_items := [⟨"inv1", .reagent, "P1", 100, 5, "2024-01-10"⟩]
    transfers := []
    transfer_items := []
    stock_out := []
    stock_out_items := [] }

def exampleSel : SelectedItem := ⟨.reagent, "P1", "2024-01-10", 5, 30⟩

def exampleDB1 : DB := performTransfer exampleDB "W1" "W2" "2024-01-15" [exampleSel] "T1" "SO1"

/-- Two receipts of `P1` on the same date at different unit prices (10 units
at price 1 and 10 units at price 2) in warehouse `A`. -/
def twoPriceDB : DB :=
  { warehouses := [⟨"A", "Warehouse A", "WHA"⟩, ⟨"B", "Warehouse B", "WHB"⟩]
    reagents := [⟨"P1", "R001", "Reagent 1"⟩]
    consumables := []
    invoices := [⟨"inv1", "Acme", "A", "active"⟩]
    invoice_items := [⟨"inv1", .reagent, "P1", 10, 1, "2024-01-10"⟩,
                      ⟨"inv1", .reagent, "P1", 10, 2, "2024-01-10"⟩]
    transfers := []
    transfer_items := []
    stock_out := []
    stock_out_items := [] }

/-- `twoPriceDB` after a consumption stock-out of 5 units dated to the
shared batch date. -/
def collisionDB : DB :=
  { twoPriceDB with
    stock_out := [⟨"so1", "A", "2024-01-12", "consumption", 5, none⟩]
    stock_out_items := [⟨"so1", .reagent, "P1", "2024-01-10", 5, 1, 5⟩] }

/-- `twoPriceDB` after transferring 5 units of the price-1 batch from `A`
to `B` through the transfer flow. -/
def twoPriceDB1 : DB :=
  performTransfer twoPriceDB "A" "B" "2024-02-01" [⟨.reagent, "P1", "2024-01-10", 1, 5⟩]
    "T1" "SO1"

/-- A warehouse `A` ledger whose only decrease document carries the given
reason tag: one active invoice line of 10 units and one stock-out line of
5 units on the same batch date. -/
def reasonDB (reason : String) : DB :=
  { warehouses := [⟨"A", "Warehouse A", "WHA"⟩]
    reagents := [⟨"P1", "R001", "Reagent 1"⟩]
    consumables := []
    invoices := [⟨"inv1", "Acme", "A", "active"⟩]
    invoice_items := [⟨"inv1", .reagent, "P1", 10, 2, "2024-01-10"⟩]
    transfers := []
    transfer_items := []
    stock_out := [⟨"so1", "A", "2024-01-12", reason, 10, none⟩]
    stock_out_items := [⟨"so1", .reagent, "P1", "2024-01-10", 5, 2, 10⟩] }

/-! ## Claims -/

/-- C9: for every input and ledger snapshot, the returned `batches[]` list is
sorted by `batch_date` descending (most recent first), under the lexical
order of the ISO-8601 date strings. -/
theorem batches_sorted_by_date_descending (db : DB) (warehouseId productId : String)
    (productType : ProductType) :
    ((calculateProductStockInWarehouse db warehouseId productId productType).batches).Pairwise
      (fun a b => b.batch_date ≤ a.batch_date) := by
  unfold calculateProductStockInWarehouse
  rw [assemble_batches]
  exact sortBatches_pairwise _

/-- C6: every returned batch has strictly positive quantity (non-positive
nets are dropped silently), `totalQuantity` is the sum of the emitted batch
quantities, `totalValue` is the sum of the emitted `quantity * unit_price`
values, and consequently the output never shows negative stock. -/
theorem stock_output_invariants (db : DB) (warehouseId productId : String)
    (productType : ProductType) :
    (∀ b ∈ (calculateProductStockInWarehouse db warehouseId productId productType).batches,
        0 < b.quantity)
    ∧ (calculateProductStockInWarehouse db warehouseId productId productType).totalQuantity =
        (((calculateProductStockInWarehouse db warehouseId productId productType).batches).map
          BatchOut.quantity).sum
    ∧ (calculateProductStockInWarehouse db warehouseId productId productType).totalValue =
        (((calculateProductStockInWarehouse db warehouseId productId productType).batches).map
          (fun b => b.quantity * b.unit_price)).sum
    ∧ 0 ≤ (calculateProductStockInWarehouse db warehouseId productId productType).totalQuantity := by
  refine ⟨?_, ?_, ?_, calculate_totalQuantity_nonneg db warehouseId productId productType⟩
  · intro b hb
    exact emit_all_pos _ _ _ b ((assemble_mem_batches _ _ _ _ _ b).mp hb)
  · unfold calculateProductStockInWarehouse
    rw [assemble_totalQuantity_eq_emit, assemble_batches]
    exact (((sortBatches_perm _).map BatchOut.quantity).sum_eq).symm
  · unfold calculateProductStockInWarehouse
    rw [assemble_totalValue_eq_emit, assemble_batches,
      sum_map_congr (fun b hb => emit_total_price _ _ _ b hb)]
    exact (((sortBatches_perm _).map (fun b => b.quantity * b.unit_price)).sum_eq).symm

/-- C6 witness: the invariants instantiated on the example snapshot. -/
theorem stock_output_invariants_witness :
    (calculateProductStockInWarehouse exampleDB "W1" "P1" ProductType.reagent).totalQuantity =
      (((calculateProductStockInWarehouse exampleDB "W1" "P1" ProductType.reagent).batches).map
        BatchOut.quantity).sum :=
  (stock_output_invariants exampleDB "W1" "P1" ProductType.reagent).2.1

/-- C7: the consistency sweeper walks every (warehouse, product) pair of
both categories and reports exactly the pairs with negative computed
`totalQuantity`; since the public total is clamped at zero, it returns the
empty issue list on every snapshot. -/
theorem consistency_sweeper_finds_nothing (db : DB) : validateStockConsistency db = [] := by
  unfold validateStockConsistency
  refine flatMap_nil_of_forall _ _ ?_
  intro w _
  refine filterMap_nil_of_forall _ _ ?_
  intro pr _
  rw [if_neg (not_lt.mpr (calculate_totalQuantity_nonneg db w.id pr.1.id pr.2))]

end Medlab

namespace Medlab

/-- C3: in the netting step, decreases are accumulated per `batch_date`
only (stock-out and transfer-out lines summed by date, irrespective of
unit price), and every emitted `(batch_date, unit_price)` bucket has had
the full per-date decrease total subtracted from its accumulated increase:
since the subtrahend `exitSumAt ... b.batch_date` does not depend on the
bucket's price, several price buckets sharing one date are each reduced by
the same full decrease total, not by an apportioned share. -/
theorem per_date_decrease_fully_subtracted (db : DB) (warehouseId productId : String)
    (productType : ProductType) (b : BatchOut)
    (hb : b ∈ (calculateProductStockInWarehouse db warehouseId productId productType).batches) :
    b.quantity =
      incSumAt (stockEntries db warehouseId productId productType)
          (transferItemsInto db warehouseId productId productType) b.batch_date b.unit_price
        - exitSumAt (stockOutItemsFor db warehouseId productId productType)
            (transferItemsOutOf db warehouseId productId productType) b.batch_date := by
  obtain ⟨e, he, hpos, heq⟩ :=
    (emit_mem _ _ _ b).mp ((assemble_mem_batches _ _ _ _ _ b).mp hb)
  have hdate : b.batch_date = e.1.1 := by rw [heq]
  have hprice : b.unit_price = e.2.price := by rw [heq]
  have hprice2 : e.2.price = e.1.2 :=
    price_inv_buildBatchMap _ _ e he
  have hq : b.quantity = e.2.quantity - exGet (buildExitMap
      (stockOutItemsFor db warehouseId productId productType)
      (transferItemsOutOf db warehouseId productId productType)) e.1.1 := by rw [heq]
  have hqty : e.2.quantity = incSumAt (stockEntries db warehouseId productId productType)
      (transferItemsInto db warehouseId productId productType) e.1.1 e.1.2 := by
    have hfind := bmQty_of_mem (bmKeys_nodup_buildBatchMap
      (stockEntries db warehouseId productId productType)
      (transferItemsInto db warehouseId productId productType))
      (show (e.1, e.2) ∈ _ from (by simpa using he))
    rw [← hfind, bmQty_buildBatchMap]
  rw [hq, hqty, exGet_buildExitMap, hdate, hprice, hprice2]

/-- C3 witness: the surviving batch of the example transfer scenario at
`W1` nets 70 = 100 - 30 through the per-date decrease total. -/
theorem per_date_decrease_fully_subtracted_witness :
    (70 : Int) =
      incSumAt (stockEntries exampleDB1 "W1" "P1" ProductType.reagent)
          (transferItemsInto exampleDB1 "W1" "P1" ProductType.reagent) "2024-01-10" 5
        - exitSumAt (stockOutItemsFor exampleDB1 "W1" "P1" ProductType.reagent)
            (transferItemsOutOf exampleDB1 "W1" "P1" ProductType.reagent) "2024-01-10" :=
  per_date_decrease_fully_subtracted exampleDB1 "W1" "P1" ProductType.reagent
    { batch_date := "2024-01-10", quantity := 70, unit_price := 5, total_price := 350,
      supplier := "Acme" } (by decide)

/-- C2 counterexample: the reason tag does change the aggregation.  Two
snapshots identical except for the stock-out document's reason tag compute
different totals: with reason `transfer` the 5-unit stock-out line is
ignored (total 10); with reason `consumption` it reduces stock (total 5).
So a `reason = 'transfer'` stock-out line does not reduce the computed
stock, contradicting the claim. -/
theorem stockout_reason_changes_aggregation :
    (calculateProductStockInWarehouse (reasonDB "transfer") "A" "P1"
      ProductType.reagent).totalQuantity = 10
    ∧ (calculateProductStockInWarehouse (reasonDB "consumption") "A" "P1"
      ProductType.reagent).totalQuantity = 5
    ∧ (10 : Int) ≠ 5 := by
  refine ⟨by decide, by decide, by decide⟩

/-- C2 amended: stock-out documents with reason `transfer` are excluded
from the decrease aggregation (their decrease is carried by the mirroring
transfer-out lines instead); deleting every `reason = 'transfer'` stock-out
document from the snapshot leaves the computation unchanged on all inputs,
while stock-out lines of every other reason do enter the per-date decrease
totals. -/
theorem transfer_reason_stockouts_invisible (db : DB) (warehouseId productId : String)
    (productType : ProductType) :
    calculateProductStockInWarehouse
        { db with stock_out := db.stock_out.filter (fun s => !(s.reason == "transfer")) }
        warehouseId productId productType
      = calculateProductStockInWarehouse db warehouseId productId productType := by
  have hso : stockOutsFor
      { db with stock_out := db.stock_out.filter (fun s => !(s.reason == "transfer")) }
      warehouseId = stockOutsFor db warehouseId := by
    show (db.stock_out.filter (fun s => !(s.reason == "transfer"))).filter
        (fun s => s.warehouse_id == warehouseId && !(s.reason == "transfer"))
      = db.stock_out.filter (fun s => s.warehouse_id == warehouseId && !(s.reason == "transfer"))
    rw [List.filter_filter]
    refine List.filter_congr ?_
    intro s _
    cases h1 : s.warehouse_id == warehouseId <;> cases h2 : s.reason == "transfer" <;> simp [h1, h2]
  have hsoi : stockOutItemsFor
      { db with stock_out := db.stock_out.filter (fun s => !(s.reason == "transfer")) }
      warehouseId productId productType = stockOutItemsFor db warehouseId productId productType := by
    unfold stockOutItemsFor
    rw [hso]
  unfold calculateProductStockInWarehouse
  rw [hsoi]
  rfl

end Medlab

namespace Medlab

/-- C5 counterexample: in the transfer flow the transfer line keeps the
selected batch's *original* `batch_date` (part_005 line 684), so the
transfer line and the destination batch are dated `2024-01-10`, not the
transfer date `2024-01-15` as the claim states. -/
theorem transfer_line_keeps_original_batch_date :
    exampleDB1.transfer_items.map TransferItem.batch_date = ["2024-01-10"]
    ∧ (calculateProductStockInWarehouse exampleDB1 "W2" "P1"
        ProductType.reagent).batches.map BatchOut.batch_date = ["2024-01-10"]
    ∧ "2024-01-10" ≠ "2024-01-15" := by
  refine ⟨by decide, by decide, by decide⟩

/-- C5 amended: dispatching the 30-unit transfer from `W1` to `W2` dated
`2024-01-15` creates a transfer line and a `W1` stock-out line that both
carry the original batch date `2024-01-10` (at price 5.00); afterwards
`computeStock(W1,P1)` totals 70 and `computeStock(W2,P1)` totals 30 with a
single batch dated `2024-01-10` (not `2024-01-15`). -/
theorem example_transfer_scenario :
    (calculateProductStockInWarehouse exampleDB1 "W1" "P1"
        ProductType.reagent).totalQuantity = 70
    ∧ (calculateProductStockInWarehouse exampleDB1 "W2" "P1"
        ProductType.reagent).totalQuantity = 30
    ∧ (calculateProductStockInWarehouse exampleDB1 "W2" "P1"
        ProductType.reagent).batches =
      [{ batch_date := "2024-01-10", quantity := 30, unit_price := 5,
         total_price := 150, supplier := "" }]
    ∧ exampleDB1.stock_out_items.map StockOutItem.batch_date = ["2024-01-10"]
    ∧ exampleDB1.transfer_items.map TransferItem.unit_price = [5] := by
  refine ⟨by decide, by decide, by decide, by decide, by decide⟩

end Medlab

namespace Medlab

/-- No batch emitted from a map without key `(d, p)` survives the
`(batch_date, unit_price) = (d, p)` filter. -/
theorem emit_filter_of_no_key (r : List String → String) (em : ExitMap) (m : BatchMap)
    (d : String) (p : Int) (hnk : ∀ e ∈ m, e.1 ≠ (d, p))
    (hpr : ∀ e ∈ m, e.2.price = e.1.2) :
    (emitBatches r em m).filter (fun b => b.batch_date == d && b.unit_price == p) = [] := by
  induction m with
  | nil => rfl
  | cons e m ih =>
      obtain ⟨k, a⟩ := e
      have hk : k ≠ (d, p) := hnk (k, a) (List.mem_cons_self _ _)
      have hap : a.price = k.2 := hpr (k, a) (List.mem_cons_self _ _)
      have htail := ih (fun e he => hnk e (List.mem_cons_of_mem _ he))
        (fun e he => hpr e (List.mem_cons_of_mem _ he))
      rw [emitBatches_cons]
      by_cases hpos : 0 < a.quantity - exGet em k.1
      · rw [if_pos hpos, List.filter_cons_of_neg ?_, htail]
        show ¬ ((k.1 == d && a.price == p) = true)
        rw [hap]
        simp only [Bool.and_eq_true, beq_iff_eq]
        rintro ⟨h1, h2⟩
        exact hk (Prod.ext h1 h2)
      · rw [if_neg hpos, htail]

/-- With duplicate-free keys, filtering the emitted list at `(d, p)` returns
exactly the one batch of that bucket, provided its net is positive. -/
theorem emit_filter_at_key (r : List String → String) (em : ExitMap) (m : BatchMap)
    (d : String) (p : Int) (a0 : BatchAcc) (hnd : (bmKeys m).Nodup)
    (hpr : ∀ e ∈ m, e.2.price = e.1.2) (hmem : ((d, p), a0) ∈ m)
    (hpos : 0 < a0.quantity - exGet em d) :
    (emitBatches r em m).filter (fun b => b.batch_date == d && b.unit_price == p) =
      [{ batch_date := d, quantity := a0.quantity - exGet em d, unit_price := a0.price,
         total_price := (a0.quantity - exGet em d) * a0.price,
         supplier := r a0.invoiceIds }] := by
  induction m with
  | nil => simp at hmem
  | cons e m ih =>
      obtain ⟨k, a⟩ := e
      obtain ⟨hknotin, hnd'⟩ := List.nodup_cons.mp hnd
      have hap : a.price = k.2 := hpr (k, a) (List.mem_cons_self _ _)
      rcases List.mem_cons.mp hmem with h1 | h1
      · injection h1 with hk ha
        subst ha
        subst hk
        rw [emitBatches_cons]
        rw [if_pos (by simpa using hpos)]
        rw [List.filter_cons_of_pos ?_]
        · rw [emit_filter_of_no_key r em m d p ?_
            (fun e he => hpr e (List.mem_cons_of_mem _ he))]
          · intro e he hek
            exact hknotin (hek ▸ List.mem_map.mpr ⟨e, he, rfl⟩)
        · show ((d, p).1 == d && a0.price == p) = true
          have : a0.price = p := hpr ((d, p), a0) (List.mem_cons_self _ _)
          simp [this]
      · have hkne : k ≠ (d, p) := by
          intro h
          subst h
          exact hknotin (List.mem_map.mpr ⟨((d, p), a0), h1, rfl⟩)
        rw [emitBatches_cons]
        have htail := ih hnd' (fun e he => hpr e (List.mem_cons_of_mem _ he)) h1
        by_cases hq : 0 < a.quantity - exGet em k.1
        · rw [if_pos hq, List.filter_cons_of_neg ?_, htail]
          show ¬ ((k.1 == d && a.price == p) = true)
          rw [hap]
          simp only [Bool.and_eq_true, beq_iff_eq]
          rintro ⟨hh1, hh2⟩
          exact hkne (Prod.ext hh1 hh2)
        · rw [if_neg hq, htail]

/-- C8 amended: if receipts of the pair exist at `(d, p₁)` and `(d, p₂)`
with `p₁ ≠ p₂` and both buckets' nets (receipt totals minus the per-date
decrease total) are strictly positive, then `batches[]` holds exactly one
entry at each of the two prices — two distinct entries for the two prices,
and all same-price receipts of the date merged into that single entry,
whose quantity is their summed total minus the date's decrease total.
(Without the positivity hypotheses the claim fails: a large enough
decrease deletes the entries from the output, see the counterexample.) -/
theorem batch_separation (db : DB) (warehouseId productId : String) (productType : ProductType)
    (d : String) (p1 p2 : Int) (hne : p1 ≠ p2)
    (hk1 : (d, p1) ∈ recKeys (stockEntries db warehouseId productId productType)
      (transferItemsInto db warehouseId productId productType))
    (hk2 : (d, p2) ∈ recKeys (stockEntries db warehouseId productId productType)
      (transferItemsInto db warehouseId productId productType))
    (hpos1 : 0 < incSumAt (stockEntries db warehouseId productId productType)
        (transferItemsInto db warehouseId productId productType) d p1
      - exitSumAt (stockOutItemsFor db warehouseId productId productType)
        (transferItemsOutOf db warehouseId productId productType) d)
    (hpos2 : 0 < incSumAt (stockEntries db warehouseId productId productType)
        (transferItemsInto db warehouseId productId productType) d p2
      - exitSumAt (stockOutItemsFor db warehouseId productId productType)
        (transferItemsOutOf db warehouseId productId productType) d) :
    (((calculateProductStockInWarehouse db warehouseId productId productType).batches.filter
        (fun b => b.batch_date == d && b.unit_price == p1)).length = 1
    ∧ ((calculateProductStockInWarehouse db warehouseId productId productType).batches.filter
        (fun b => b.batch_date == d && b.unit_price == p2)).length = 1)
    ∧ (∀ b ∈ (calculateProductStockInWarehouse db warehouseId productId productType).batches,
        b.batch_date = d → b.unit_price = p1 →
          b.quantity = incSumAt (stockEntries db warehouseId productId productType)
              (transferItemsInto db warehouseId productId productType) d p1
            - exitSumAt (stockOutItemsFor db warehouseId productId productType)
              (transferItemsOutOf db warehouseId productId productType) d)
    ∧ (∀ b ∈ (calculateProductStockInWarehouse db warehouseId productId productType).batches,
        b.batch_date = d → b.unit_price = p2 →
          b.quantity = incSumAt (stockEntries db warehouseId productId productType)
              (transferItemsInto db warehouseId productId productType) d p2
            - exitSumAt (stockOutItemsFor db warehouseId productId productType)
              (transferItemsOutOf db warehouseId productId productType) d) := by
  have hnd := bmKeys_nodup_buildBatchMap (stockEntries db warehouseId productId productType)
    (transferItemsInto db warehouseId productId productType)
  have hpr := price_inv_buildBatchMap (stockEntries db warehouseId productId productType)
    (transferItemsInto db warehouseId productId productType)
  obtain ⟨e1, he1, hke1⟩ := List.mem_map.mp (mem_bmKeys_buildBatchMap _ _ hk1)
  obtain ⟨e2, he2, hke2⟩ := List.mem_map.mp (mem_bmKeys_buildBatchMap _ _ hk2)
  have hmem1 : ((d, p1), e1.2) ∈ buildBatchMap (stockEntries db warehouseId productId productType)
      (transferItemsInto db warehouseId productId productType) := by
    rw [← hke1]; simpa using he1
  have hmem2 : ((d, p2), e2.2) ∈ buildBatchMap (stockEntries db warehouseId productId productType)
      (transferItemsInto db warehouseId productId productType) := by
    rw [← hke2]; simpa using he2
  have hq1 : e1.2.quantity = incSumAt (stockEntries db warehouseId productId productType)
      (transferItemsInto db warehouseId productId productType) d p1 := by
    rw [← bmQty_of_mem hnd hmem1, bmQty_buildBatchMap]
  have hq2 : e2.2.quantity = incSumAt (stockEntries db warehouseId productId productType)
      (transferItemsInto db warehouseId productId productType) d p2 := by
    rw [← bmQty_of_mem hnd hmem2, bmQty_buildBatchMap]
  have hgex : exGet (buildExitMap (stockOutItemsFor db warehouseId productId productType)
      (transferItemsOutOf db warehouseId productId productType)) d
      = exitSumAt (stockOutItemsFor db warehouseId productId productType)
        (transferItemsOutOf db warehouseId productId productType) d :=
    exGet_buildExitMap _ _ _
  have hf1 := emit_filter_at_key (resolveSupplierPar db warehouseId)
    (buildExitMap (stockOutItemsFor db warehouseId productId productType)
      (transferItemsOutOf db warehouseId productId productType)) _ d p1 e1.2 hnd hpr hmem1
    (by rw [hgex, hq1]; exact hpos1)
  have hf2 := emit_filter_at_key (resolveSupplierPar db warehouseId)
    (buildExitMap (stockOutItemsFor db warehouseId productId productType)
      (transferItemsOutOf db warehouseId productId productType)) _ d p2 e2.2 hnd hpr hmem2
    (by rw [hgex, hq2]; exact hpos2)
  have hbatches : (calculateProductStockInWarehouse db warehouseId productId productType).batches
      = sortBatches (emitBatches (resolveSupplierPar db warehouseId)
        (buildExitMap (stockOutItemsFor db warehouseId productId productType)
          (transferItemsOutOf db warehouseId productId productType))
        (buildBatchMap (stockEntries db warehouseId productId productType)
          (transferItemsInto db warehouseId productId productType))) := rfl
  have hperm1 := ((sortBatches_perm (emitBatches (resolveSupplierPar db warehouseId)
      (buildExitMap (stockOutItemsFor db warehouseId productId productType)
        (transferItemsOutOf db warehouseId productId productType))
      (buildBatchMap (stockEntries db warehouseId productId productType)
        (transferItemsInto db warehouseId productId productType)))).filter
      (fun b => b.batch_date == d && b.unit_price == p1))
  have hperm2 := ((sortBatches_perm (emitBatches (resolveSupplierPar db warehouseId)
      (buildExitMap (stockOutItemsFor db warehouseId productId productType)
        (transferItemsOutOf db warehouseId productId productType))
      (buildBatchMap (stockEntries db warehouseId productId productType)
        (transferItemsInto db warehouseId productId productType)))).filter
      (fun b => b.batch_date == d && b.unit_price == p2))
  rw [hf1] at hperm1
  rw [hf2] at hperm2
  refine ⟨⟨?_, ?_⟩, ?_, ?_⟩
  · rw [hbatches, hperm1.length_eq]; rfl
  · rw [hbatches, hperm2.length_eq]; rfl
  · intro b hb hbd hbp
    rw [hbatches] at hb
    have hbx := hperm1.mem_iff.mp (List.mem_filter.mpr ⟨hb, by simp [hbd, hbp]⟩)
    rw [List.mem_singleton.mp hbx]
    show e1.2.quantity - _ = _
    rw [hq1, hgex]
  · intro b hb hbd hbp
    rw [hbatches] at hb
    have hbx := hperm2.mem_iff.mp (List.mem_filter.mpr ⟨hb, by simp [hbd, hbp]⟩)
    rw [List.mem_singleton.mp hbx]
    show e2.2.quantity - _ = _
    rw [hq2, hgex]

/-- C8 witness: the two same-date different-price receipts of `twoPriceDB`
appear as exactly one entry per price. -/
theorem batch_separation_witness :
    ((calculateProductStockInWarehouse twoPriceDB "A" "P1" ProductType.reagent).batches.filter
        (fun b => b.batch_date == "2024-01-10" && b.unit_price == 1)).length = 1
    ∧ ((calculateProductStockInWarehouse twoPriceDB "A" "P1" ProductType.reagent).batches.filter
        (fun b => b.batch_date == "2024-01-10" && b.unit_price == 2)).length = 1 :=
  (batch_separation twoPriceDB "A" "P1" ProductType.reagent "2024-01-10" 1 2
    (by decide) (by decide) (by decide) (by decide) (by decide)).1

/-- `twoPriceDB` after a 10-unit consumption on the shared batch date,
which the per-date netting subtracts from both price buckets. -/
def wipedDB : DB :=
  { twoPriceDB with
    stock_out := [⟨"so1", "A", "2024-01-12", "consumption", 10, none⟩]
    stock_out_items := [⟨"so1", ProductType.reagent, "P1", "2024-01-10", 10, 1, 10⟩] }

/-- C8 counterexample: on a snapshot holding two same-date receipts at
prices 1 and 2 plus a 10-unit decrease on that date, neither receipt
appears in `batches[]` at all (the shared decrease wipes both buckets), so
"two receipts at different prices produce two distinct entries" is false
for this ledger snapshot. -/
theorem batch_separation_needs_positive_nets :
    (calculateProductStockInWarehouse wipedDB "A" "P1" ProductType.reagent).batches = [] := by
  decide

end Medlab

namespace Medlab

/-! ### C10: the two implementations agree -/

theorem invoiceMapSet_fresh (m : List (String × String)) (k v : String)
    (hk : k ∉ m.map Prod.fst) : invoiceMapSet m k v = m ++ [(k, v)] := by
  induction m with
  | nil => rfl
  | cons e m ih =>
      obtain ⟨k', v'⟩ := e
      have hne : ¬ k' = k := by
        intro h
        exact hk (h ▸ List.mem_cons_self _ _)
      unfold invoiceMapSet
      rw [if_neg hne, ih (fun h => hk (List.mem_cons_of_mem _ h)), List.cons_append]

theorem buildInvoiceMap_eq_map (invs : List Invoice)
    (hnd : (invs.map Invoice.id).Nodup) :
    buildInvoiceMap invs = invs.map (fun v => (v.id, v.supplier)) := by
  have h : ∀ (l : List Invoice) (m0 : List (String × String)),
      (m0.map Prod.fst ++ l.map Invoice.id).Nodup →
      l.foldl (fun m inv => invoiceMapSet m inv.id inv.supplier) m0 =
        m0 ++ l.map (fun v => (v.id, v.supplier)) := by
    intro l
    induction l with
    | nil => intro m0 _; simp
    | cons inv l ih =>
        intro m0 h0
        have hfresh : inv.id ∉ m0.map Prod.fst := by
          intro hmem
          have hdis := (List.nodup_append.mp h0).2.2
          exact hdis hmem (List.mem_cons_self _ _)
        rw [List.foldl_cons, invoiceMapSet_fresh m0 inv.id inv.supplier hfresh, ih _ ?_,
          List.append_assoc, List.map_cons, List.singleton_append]
        simpa using h0
  have h0 : (([] : List (String × String)).map Prod.fst ++ invs.map Invoice.id).Nodup := by
    simpa using hnd
  rw [buildInvoiceMap, h invs [] h0, List.nil_append]

theorem invoiceMapGet_map_pair (invs : List Invoice) (hnd : (invs.map Invoice.id).Nodup)
    (inv : Invoice) (hmem : inv ∈ invs) :
    invoiceMapGet (invs.map (fun v => (v.id, v.supplier))) inv.id = inv.supplier := by
  induction invs with
  | nil => simp at hmem
  | cons h l ih =>
      obtain ⟨hknotin, hnd'⟩ := List.nodup_cons.mp hnd
      by_cases hid : h.id = inv.id
      · have hinv : inv = h := by
          rcases List.mem_cons.mp hmem with h1 | h1
          · exact h1
          · exact absurd (hid ▸ List.mem_map.mpr ⟨inv, h1, rfl⟩) hknotin
        subst hinv
        simp [invoiceMapGet, List.find?, hid]
      · have h1 : inv ∈ l := by
          rcases List.mem_cons.mp hmem with h2 | h2
          · exact absurd (h2 ▸ rfl) hid
          · exact h2
        rw [List.map_cons, show invoiceMapGet ((h.id, h.supplier) :: l.map
            (fun v => (v.id, v.supplier))) inv.id =
            invoiceMapGet (l.map (fun v => (v.id, v.supplier))) inv.id from ?_]
        · exact ih hnd' h1
        · simp [invoiceMapGet, List.find?, hid]

theorem filter_id_nil (l : List Invoice) (i : String) (h : i ∉ l.map Invoice.id) :
    l.filter (fun v => v.id == i) = [] := by
  induction l with
  | nil => rfl
  | cons inv l ih =>
      have hne : ¬ inv.id = i := by
        intro hh
        exact h (hh ▸ List.mem_map.mpr ⟨inv, List.mem_cons_self _ _, rfl⟩)
      rw [List.filter_cons_of_neg (by simp [hne]),
        ih (fun hh => h (List.mem_map.mp hh |>.elim
          (fun v hv => List.mem_map.mpr ⟨v, List.mem_cons_of_mem _ hv.1, hv.2⟩)))]

theorem filter_id_singleton (l : List Invoice) (hnd : (l.map Invoice.id).Nodup)
    (inv : Invoice) (hmem : inv ∈ l) :
    l.filter (fun v => v.id == inv.id) = [inv] := by
  induction l with
  | nil => simp at hmem
  | cons h l ih =>
      obtain ⟨hknotin, hnd'⟩ := List.nodup_cons.mp hnd
      rcases List.mem_cons.mp hmem with h1 | h1
      · subst h1
        rw [List.filter_cons_of_pos (by simp), filter_id_nil l inv.id hknotin]
      · have hne : ¬ h.id = inv.id := by
          intro hh
          exact hknotin (hh ▸ List.mem_map.mpr ⟨inv, h1, rfl⟩)
        rw [List.filter_cons_of_neg (by simp [hne]), ih hnd' h1]

theorem nodup_active_ids (db : DB) (warehouseId : String)
    (hnd : (db.invoices.map Invoice.id).Nodup) :
    ((activeInvoices db warehouseId).map Invoice.id).Nodup :=
  hnd.sublist ((List.filter_sublist _).map Invoice.id)

/-- On any first invoice id of an active invoice of the warehouse, the
prefetched-map resolution (part_000) and the per-batch re-query resolution
(part_001) return the same supplier, given database-unique invoice ids. -/
theorem resolve_agree (db : DB) (warehouseId : String)
    (hnd : (db.invoices.map Invoice.id).Nodup) (ids : List String)
    (hids : ∀ i ∈ ids, i ∈ (activeInvoices db warehouseId).map Invoice.id) :
    resolveSupplierPar db warehouseId ids = resolveSupplierSeq db ids := by
  cases ids with
  | nil => rfl
  | cons i rest =>
      obtain ⟨inv, hinvmem, hinvid⟩ := List.mem_map.mp (hids i (List.mem_cons_self _ _))
      have hact := nodup_active_ids db warehouseId hnd
      show invoiceMapGet (buildInvoiceMap (activeInvoices db warehouseId)) i =
        match db.invoices.filter (fun v => v.id == i) with
        | [inv] => inv.supplier
        | _ => ""
      rw [← hinvid, buildInvoiceMap_eq_map _ hact,
        invoiceMapGet_map_pair _ hact inv hinvmem,
        filter_id_singleton db.invoices hnd inv (List.mem_of_mem_filter hinvmem)]

theorem stockEntries_invoice_id_mem (db : DB) (warehouseId productId : String)
    (productType : ProductType) :
    ∀ e ∈ stockEntries db warehouseId productId productType,
      e.invoice_id ∈ (activeInvoices db warehouseId).map Invoice.id := by
  intro e he
  have h := List.of_mem_filter he
  simp only [Bool.and_eq_true] at h
  have := h.2
  simpa [List.contains_iff_exists_mem_beq, List.mem_map] using this

theorem assemble_eq_mk (r : List String → String) (es : List InvoiceItem)
    (tin : List TransferItem) (souts : List StockOutItem) (tout : List TransferItem) :
    assembleStock r es tin souts tout =
      { totalQuantity := ((emitBatches r (buildExitMap souts tout)
          (buildBatchMap es tin)).map BatchOut.quantity).sum
        totalValue := ((emitBatches r (buildExitMap souts tout)
          (buildBatchMap es tin)).map BatchOut.total_price).sum
        batches := sortBatches (emitBatches r (buildExitMap souts tout)
          (buildBatchMap es tin)) } := rfl

/-- C10: for the same fixed snapshot with database-unique invoice ids, the
parallel-fetch implementation (part_000) and the sequential-fetch
implementation (part_001) return identical results — same totals and same
ordered batch list including supplier attribution. -/
theorem parallel_and_sequential_versions_agree (db : DB) (warehouseId productId : String)
    (productType : ProductType) (hnd : (db.invoices.map Invoice.id).Nodup) :
    calculateProductStockInWarehouse db warehouseId productId productType =
      calculateProductStockInWarehouseSeq db warehouseId productId productType := by
  unfold calculateProductStockInWarehouse calculateProductStockInWarehouseSeq
  have hemit : emitBatches (resolveSupplierPar db warehouseId)
      (buildExitMap (stockOutItemsFor db warehouseId productId productType)
        (transferItemsOutOf db warehouseId productId productType))
      (buildBatchMap (stockEntries db warehouseId productId productType)
        (transferItemsInto db warehouseId productId productType))
      = emitBatches (resolveSupplierSeq db)
      (buildExitMap (stockOutItemsFor db warehouseId productId productType)
        (transferItemsOutOf db warehouseId productId productType))
      (buildBatchMap (stockEntries db warehouseId productId productType)
        (transferItemsInto db warehouseId productId productType)) := by
    refine emit_congr _ _ _ _ ?_
    intro e he
    refine resolve_agree db warehouseId hnd e.2.invoiceIds ?_
    intro i hi
    obtain ⟨e', he', hid⟩ := List.mem_map.mp
      (invIds_buildBatchMap (stockEntries db warehouseId productId productType)
        (transferItemsInto db warehouseId productId productType) e he i hi)
    exact hid ▸ stockEntries_invoice_id_mem db warehouseId productId productType e' he'
  rw [assemble_eq_mk, assemble_eq_mk, hemit]

/-- C10 witness: the two implementations agree on the example snapshot,
whose invoice ids are unique. -/
theorem parallel_and_sequential_versions_agree_witness :
    calculateProductStockInWarehouse exampleDB1 "W1" "P1" ProductType.reagent =
      calculateProductStockInWarehouseSeq exampleDB1 "W1" "P1" ProductType.reagent :=
  parallel_and_sequential_versions_agree exampleDB1 "W1" "P1" ProductType.reagent (by decide)

end Medlab

namespace Medlab

/-! ### C1: exactness of the netting under a collision-free ledger -/

/-- Under a single-price-per-date, covered and bounded ledger, the sum of
the positive bucket nets is the exact difference of total increases and
total decreases. -/
theorem netting_exact (es : List InvoiceItem) (tin : List TransferItem)
    (souts : List StockOutItem) (tout : List TransferItem)
    (hsingle : ∀ k1 ∈ recKeys es tin, ∀ k2 ∈ recKeys es tin, k1.1 = k2.1 → k1.2 = k2.2)
    (hcovS : ∀ y ∈ souts, ∃ k ∈ recKeys es tin, k.1 = y.batch_date)
    (hcovT : ∀ y ∈ tout, ∃ k ∈ recKeys es tin, k.1 = y.batch_date)
    (hbound : ∀ k ∈ recKeys es tin, exitSumAt souts tout k.1 ≤ incSumAt es tin k.1 k.2) :
    ((buildBatchMap es tin).map
        (fun e => posPart (e.2.quantity - exitSumAt souts tout e.1.1))).sum
      = ((es.map InvoiceItem.quantity).sum + (tin.map TransferItem.quantity).sum)
        - ((souts.map StockOutItem.quantity).sum + (tout.map TransferItem.quantity).sum) := by
  have hnd := bmKeys_nodup_buildBatchMap es tin
  have hsub := bmKeys_buildBatchMap_subset es tin
  -- each entry's accumulated quantity is the per-key increase total
  have hq : ∀ e ∈ buildBatchMap es tin, e.2.quantity = incSumAt es tin e.1.1 e.1.2 := by
    intro e he
    have : (e.1, e.2) ∈ buildBatchMap es tin := by simpa using he
    rw [← bmQty_of_mem hnd this, bmQty_buildBatchMap]
  -- every bucket's net is nonnegative, so posPart is the identity on it
  have hcollapse : ((buildBatchMap es tin).map
      (fun e => posPart (e.2.quantity - exitSumAt souts tout e.1.1))).sum
      = ((buildBatchMap es tin).map
      (fun e => e.2.quantity - exitSumAt souts tout e.1.1)).sum := by
    refine sum_map_congr ?_
    intro e he
    refine posPart_of_nonneg ?_
    have hk : e.1 ∈ recKeys es tin := hsub (List.mem_map.mpr ⟨e, he, rfl⟩)
    rw [hq e he]
    exact sub_nonneg.mpr (hbound e.1 hk)
  rw [hcollapse, sum_map_sub]
  -- increases: partition the events by the duplicate-free key list
  have hinc : ((buildBatchMap es tin).map (fun e => e.2.quantity)).sum
      = (es.map InvoiceItem.quantity).sum + (tin.map TransferItem.quantity).sum := by
    rw [sum_map_congr hq]
    have hmm : ((buildBatchMap es tin).map (fun e => incSumAt es tin e.1.1 e.1.2)).sum
        = ((bmKeys (buildBatchMap es tin)).map (fun k => incSumAt es tin k.1 k.2)).sum := by
      rw [bmKeys, List.map_map]
      rfl
    rw [hmm]
    unfold incSumAt
    rw [sum_map_add]
    have hes : ((bmKeys (buildBatchMap es tin)).map (fun k =>
        ((es.filter (fun e => e.batch_date == k.1 && e.unit_price == k.2)).map
          InvoiceItem.quantity).sum)).sum = (es.map InvoiceItem.quantity).sum := by
      have hpart := sum_partition (bmKeys (buildBatchMap es tin)) hnd es
        (fun e => (e.batch_date, e.unit_price)) InvoiceItem.quantity
        (fun x hx => mem_bmKeys_buildBatchMap es tin
          (List.mem_append_left _ (List.mem_map.mpr ⟨x, hx, rfl⟩)))
      rw [← hpart]
      refine sum_map_congr ?_
      intro k _
      refine congrArg (fun l => (List.map InvoiceItem.quantity l).sum)
        (List.filter_congr ?_)
      intro x _
      obtain ⟨k1, k2⟩ := k
      rfl
    have htin : ((bmKeys (buildBatchMap es tin)).map (fun k =>
        ((tin.filter (fun t => t.batch_date == k.1 && t.unit_price == k.2)).map
          TransferItem.quantity).sum)).sum = (tin.map TransferItem.quantity).sum := by
      have hpart := sum_partition (bmKeys (buildBatchMap es tin)) hnd tin
        (fun t => (t.batch_date, t.unit_price)) TransferItem.quantity
        (fun x hx => mem_bmKeys_buildBatchMap es tin
          (List.mem_append_right _ (List.mem_map.mpr ⟨x, hx, rfl⟩)))
      rw [← hpart]
      refine sum_map_congr ?_
      intro k _
      refine congrArg (fun l => (List.map TransferItem.quantity l).sum)
        (List.filter_congr ?_)
      intro x _
      obtain ⟨k1, k2⟩ := k
      rfl
    rw [hes, htin]
  -- decreases: the key dates are duplicate-free and cover all exit dates
  have hdnd : ((bmKeys (buildBatchMap es tin)).map Prod.fst).Nodup := by
    refine List.Nodup.map_on ?_ hnd
    intro k1 hk1 k2 hk2 hfst
    have h2 := hsingle k1 (hsub hk1) k2 (hsub hk2) hfst
    exact Prod.ext hfst h2
  have hexit : ((buildBatchMap es tin).map (fun e => exitSumAt souts tout e.1.1)).sum
      = (souts.map StockOutItem.quantity).sum + (tout.map TransferItem.quantity).sum := by
    have hmm : ((buildBatchMap es tin).map (fun e => exitSumAt souts tout e.1.1)).sum
        = (((bmKeys (buildBatchMap es tin)).map Prod.fst).map
          (fun d => exitSumAt souts tout d)).sum := by
      rw [bmKeys, List.map_map, List.map_map]
      rfl
    rw [hmm]
    unfold exitSumAt
    rw [sum_map_add]
    have hS : (((bmKeys (buildBatchMap es tin)).map Prod.fst).map (fun d =>
        ((souts.filter (fun x => x.batch_date == d)).map StockOutItem.quantity).sum)).sum
        = (souts.map StockOutItem.quantity).sum := by
      refine sum_partition _ hdnd souts StockOutItem.batch_date StockOutItem.quantity ?_
      intro y hy
      obtain ⟨k, hk, hkd⟩ := hcovS y hy
      exact hkd ▸ List.mem_map.mpr ⟨k, mem_bmKeys_buildBatchMap es tin hk, rfl⟩
    have hT : (((bmKeys (buildBatchMap es tin)).map Prod.fst).map (fun d =>
        ((tout.filter (fun x => x.batch_date == d)).map TransferItem.quantity).sum)).sum
        = (tout.map TransferItem.quantity).sum := by
      refine sum_partition _ hdnd tout TransferItem.batch_date TransferItem.quantity ?_
      intro y hy
      obtain ⟨k, hk, hkd⟩ := hcovT y hy
      exact hkd ▸ List.mem_map.mpr ⟨k, mem_bmKeys_buildBatchMap es tin hk, rfl⟩
    rw [hS, hT]
  rw [hinc, hexit]

/-- With no `reason = 'transfer'` stock-out at the warehouse, the code's
reason-filtered stock-out query coincides with the set of all stock-out
documents of the warehouse. -/
theorem stockOutsFor_eq_all (db : DB) (warehouseId : String)
    (hnt : ∀ s ∈ db.stock_out, s.warehouse_id = warehouseId → s.reason ≠ "transfer") :
    stockOutsFor db warehouseId = db.stock_out.filter (fun s => s.warehouse_id == warehouseId) := by
  unfold stockOutsFor
  refine List.filter_congr ?_
  intro s hs
  by_cases hw : s.warehouse_id = warehouseId
  · have hr : s.reason ≠ "transfer" := hnt s hs hw
    simp [hw, hr]
  · simp [hw]

end Medlab

namespace Medlab

/-- C1 amended: when the fetched ledger of the (warehouse, product,
category) triple is collision-free and well-formed — all increase events
sharing a batch date share one unit price, every decrease line's date is a
receipt date, the per-date decrease total never exceeds that date's
increase total, and the warehouse has no `reason = 'transfer'` stock-out
documents (whose lines the computation deliberately ignores) — the
computation's `totalQuantity` equals the exact algebraic sum of the signed
ledger events (active-invoice lines and transfer-ins positive,
transfer-outs and stock-outs negative), and it is ≥ 0. -/
theorem total_equals_signed_event_sum (db : DB) (warehouseId productId : String)
    (productType : ProductType)
    (hsingle : ∀ k1 ∈ recKeys (stockEntries db warehouseId productId productType)
        (transferItemsInto db warehouseId productId productType),
      ∀ k2 ∈ recKeys (stockEntries db warehouseId productId productType)
        (transferItemsInto db warehouseId productId productType),
      k1.1 = k2.1 → k1.2 = k2.2)
    (hcovS : ∀ y ∈ stockOutItemsFor db warehouseId productId productType,
      ∃ k ∈ recKeys (stockEntries db warehouseId productId productType)
        (transferItemsInto db warehouseId productId productType), k.1 = y.batch_date)
    (hcovT : ∀ y ∈ transferItemsOutOf db warehouseId productId productType,
      ∃ k ∈ recKeys (stockEntries db warehouseId productId productType)
        (transferItemsInto db warehouseId productId productType), k.1 = y.batch_date)
    (hbound : ∀ k ∈ recKeys (stockEntries db warehouseId productId productType)
        (transferItemsInto db warehouseId productId productType),
      exitSumAt (stockOutItemsFor db warehouseId productId productType)
          (transferItemsOutOf db warehouseId productId productType) k.1
        ≤ incSumAt (stockEntries db warehouseId productId productType)
          (transferItemsInto db warehouseId productId productType) k.1 k.2)
    (hnt : ∀ s ∈ db.stock_out, s.warehouse_id = warehouseId → s.reason ≠ "transfer") :
    (calculateProductStockInWarehouse db warehouseId productId productType).totalQuantity
      = specSignedSum db warehouseId productId productType
    ∧ 0 ≤ (calculateProductStockInWarehouse db warehouseId productId productType).totalQuantity := by
  refine ⟨?_, calculate_totalQuantity_nonneg db warehouseId productId productType⟩
  have h1 : (calculateProductStockInWarehouse db warehouseId productId productType).totalQuantity
      = ((buildBatchMap (stockEntries db warehouseId productId productType)
          (transferItemsInto db warehouseId productId productType)).map
        (fun e => posPart (e.2.quantity
          - exitSumAt (stockOutItemsFor db warehouseId productId productType)
            (transferItemsOutOf db warehouseId productId productType) e.1.1))).sum := by
    unfold calculateProductStockInWarehouse
    rw [assemble_totalQuantity]
  rw [h1, netting_exact _ _ _ _ hsingle hcovS hcovT hbound]
  unfold specSignedSum
  rw [← stockOutsFor_eq_all db warehouseId hnt]
  show _ = _ + _ - _ - ((stockOutItemsFor db warehouseId productId productType).map
    StockOutItem.quantity).sum
  ring

/-- C1 counterexample: `collisionDB` holds two same-date price buckets
(10 units at price 1, 10 at price 2) and a 5-unit consumption on that
date — well-formed in the claim's sense, since the 5-unit decrease is below
either bucket's prior increases (and far below the date's total of 20).
The per-date netting subtracts the 5 from *both* buckets, so the code
returns 10 while the algebraic sum of the signed events is 15. -/
theorem signed_sum_counterexample :
    exitSumAt (stockOutItemsFor collisionDB "A" "P1" ProductType.reagent)
        (transferItemsOutOf collisionDB "A" "P1" ProductType.reagent) "2024-01-10" = 5
    ∧ incSumAt (stockEntries collisionDB "A" "P1" ProductType.reagent)
        (transferItemsInto collisionDB "A" "P1" ProductType.reagent) "2024-01-10" 1 = 10
    ∧ incSumAt (stockEntries collisionDB "A" "P1" ProductType.reagent)
        (transferItemsInto collisionDB "A" "P1" ProductType.reagent) "2024-01-10" 2 = 10
    ∧ (calculateProductStockInWarehouse collisionDB "A" "P1"
        ProductType.reagent).totalQuantity = 10
    ∧ specSignedSum collisionDB "A" "P1" ProductType.reagent = 15
    ∧ (10 : Int) ≠ 15 := by
  refine ⟨by decide, by decide, by decide, by decide, by decide, by decide⟩

/-- C1 witness: the amended equality instantiated on the example snapshot
(one active invoice line, no decreases): total 100 = signed sum 100 ≥ 0. -/
theorem total_equals_signed_event_sum_witness :
    (calculateProductStockInWarehouse exampleDB "W1" "P1" ProductType.reagent).totalQuantity
      = specSignedSum exampleDB "W1" "P1" ProductType.reagent
    ∧ 0 ≤ (calculateProductStockInWarehouse exampleDB "W1" "P1"
        ProductType.reagent).totalQuantity :=
  total_equals_signed_event_sum exampleDB "W1" "P1" ProductType.reagent
    (by decide) (by decide) (by decide) (by decide) (by decide)

end Medlab

namespace Medlab

/-! ### C4: how one dispatched transfer shifts each query -/

theorem filter_eq_nil_of_false {α : Type} (l : List α) (p : α → Bool)
    (h : ∀ a ∈ l, p a = false) : l.filter p = [] := by
  induction l with
  | nil => rfl
  | cons a l ih =>
      rw [List.filter_cons_of_neg (by simp [h a (List.mem_cons_self _ _)]),
        ih (fun a ha => h a (List.mem_cons_of_mem _ ha))]

/-- The `transfers` row inserted by `performTransfer`. -/
def newTransferRow (f t dt : String) (items : List SelectedItem) (tid : String) : Transfer :=
  { id := tid, from_warehouse_id := f, to_warehouse_id := t, date := dt,
    total_amount := (items.map (fun it => it.transfer_quantity * it.unit_price)).sum }

/-- The `transfer_items` row inserted for one selected batch. -/
def newTransferItem (x : SelectedItem) (tid : String) : TransferItem :=
  { transfer_id := tid, product_type := x.product_type, product_id := x.product_id,
    batch_date := x.batch_date, quantity := x.transfer_quantity,
    unit_price := x.unit_price, total_price := x.transfer_quantity * x.unit_price }

theorem stockEntries_perform (db : DB) (f t dt : String) (items : List SelectedItem)
    (tid sid w pid : String) (pt : ProductType) :
    stockEntries (performTransfer db f t dt items tid sid) w pid pt =
      stockEntries db w pid pt := rfl

theorem transfersInto_perform_other (db : DB) (f t dt : String) (items : List SelectedItem)
    (tid sid w : String) (hw : t ≠ w) :
    transfersInto (performTransfer db f t dt items tid sid) w = transfersInto db w := by
  unfold performTransfer transfersInto
  simp [List.filter_append, hw]

theorem transfersInto_perform_self (db : DB) (f t dt : String) (items : List SelectedItem)
    (tid sid : String) :
    transfersInto (performTransfer db f t dt items tid sid) t =
      transfersInto db t ++ [newTransferRow f t dt items tid] := by
  unfold performTransfer transfersInto newTransferRow
  simp [List.filter_append]

theorem transfersOutOf_perform_other (db : DB) (f t dt : String) (items : List SelectedItem)
    (tid sid w : String) (hw : f ≠ w) :
    transfersOutOf (performTransfer db f t dt items tid sid) w = transfersOutOf db w := by
  unfold performTransfer transfersOutOf
  simp [List.filter_append, hw]

theorem transfersOutOf_perform_self (db : DB) (f t dt : String) (items : List SelectedItem)
    (tid sid : String) :
    transfersOutOf (performTransfer db f t dt items tid sid) f =
      transfersOutOf db f ++ [newTransferRow f t dt items tid] := by
  unfold performTransfer transfersOutOf newTransferRow
  simp [List.filter_append]

theorem stockOutsFor_perform (db : DB) (f t dt : String) (items : List SelectedItem)
    (tid sid w : String) :
    stockOutsFor (performTransfer db f t dt items tid sid) w = stockOutsFor db w := by
  unfold performTransfer stockOutsFor
  simp [List.filter_append]

theorem contains_false_of_forall_ne (l : List String) (a : String)
    (h : ∀ b ∈ l, b ≠ a) : l.contains a = false := by
  rw [Bool.eq_false_iff]
  intro hc
  obtain ⟨b, hb, hbeq⟩ := List.contains_iff_exists_mem_beq.mp hc
  exact h b hb (beq_iff_eq.mp hbeq).symm

theorem filter_append_right_nil {α : Type} (l1 l2 : List α) (p : α → Bool)
    (h : ∀ a ∈ l2, p a = false) : (l1 ++ l2).filter p = l1.filter p := by
  rw [List.filter_append, filter_eq_nil_of_false l2 p h, List.append_nil]

theorem stockOutItemsFor_perform (db : DB) (f t dt : String) (items : List SelectedItem)
    (tid sid w pid : String) (pt : ProductType)
    (hsid : ∀ s ∈ db.stock_out, s.id ≠ sid) :
    stockOutItemsFor (performTransfer db f t dt items tid sid) w pid pt =
      stockOutItemsFor db w pid pt := by
  have hids : (stockOutsFor (performTransfer db f t dt items tid sid) w).map StockOut.id
      = (stockOutsFor db w).map StockOut.id := by
    rw [stockOutsFor_perform]
  have hnotin : ((stockOutsFor db w).map StockOut.id).contains sid = false := by
    refine contains_false_of_forall_ne _ _ ?_
    intro b hb
    obtain ⟨s, hs, hsidEq⟩ := List.mem_map.mp hb
    exact hsidEq ▸ hsid s (List.mem_of_mem_filter hs)
  unfold stockOutItemsFor
  rw [hids]
  refine filter_append_right_nil _ _ _ ?_
  intro y hy
  obtain ⟨it, _, hit⟩ := List.mem_map.mp hy
  subst hit
  simp
  intro _ _ x hx
  exact hsid x (List.mem_of_mem_filter hx)

theorem transferItemsInto_perform_other (db : DB) (f t dt : String)
    (items : List SelectedItem) (tid sid w pid : String) (pt : ProductType)
    (hw : t ≠ w) (htid : ∀ tr ∈ db.transfers, tr.id ≠ tid) :
    transferItemsInto (performTransfer db f t dt items tid sid) w pid pt =
      transferItemsInto db w pid pt := by
  have hids : (transfersInto (performTransfer db f t dt items tid sid) w).map Transfer.id
      = (transfersInto db w).map Transfer.id := by
    rw [transfersInto_perform_other db f t dt items tid sid w hw]
  have hnotin : ((transfersInto db w).map Transfer.id).contains tid = false := by
    refine contains_false_of_forall_ne _ _ ?_
    intro b hb
    obtain ⟨tr, htr, htrEq⟩ := List.mem_map.mp hb
    exact htrEq ▸ htid tr (List.mem_of_mem_filter htr)
  unfold transferItemsInto
  rw [hids]
  refine filter_append_right_nil _ _ _ ?_
  intro y hy
  obtain ⟨it, _, hit⟩ := List.mem_map.mp hy
  subst hit
  simp
  intro _ _ x hx
  exact htid x (List.mem_of_mem_filter hx)

theorem transferItemsOutOf_perform_other (db : DB) (f t dt : String)
    (items : List SelectedItem) (tid sid w pid : String) (pt : ProductType)
    (hw : f ≠ w) (htid : ∀ tr ∈ db.transfers, tr.id ≠ tid) :
    transferItemsOutOf (performTransfer db f t dt items tid sid) w pid pt =
      transferItemsOutOf db w pid pt := by
  have hids : (transfersOutOf (performTransfer db f t dt items tid sid) w).map Transfer.id
      = (transfersOutOf db w).map Transfer.id := by
    rw [transfersOutOf_perform_other db f t dt items tid sid w hw]
  have hnotin : ((transfersOutOf db w).map Transfer.id).contains tid = false := by
    refine contains_false_of_forall_ne _ _ ?_
    intro b hb
    obtain ⟨tr, htr, htrEq⟩ := List.mem_map.mp hb
    exact htrEq ▸ htid tr (List.mem_of_mem_filter htr)
  unfold transferItemsOutOf
  rw [hids]
  refine filter_append_right_nil _ _ _ ?_
  intro y hy
  obtain ⟨it, _, hit⟩ := List.mem_map.mp hy
  subst hit
  simp
  intro _ _ x hx
  exact htid x (List.mem_of_mem_filter hx)

end Medlab

namespace Medlab

theorem contains_append_singleton_ne (l : List String) (a b : String) (h : ¬ b = a) :
    (l ++ [a]).contains b = l.contains b := by
  by_cases hmem : l.contains b = true
  · rw [hmem]
    obtain ⟨c, hc, hbeq⟩ := List.contains_iff_exists_mem_beq.mp hmem
    exact List.contains_iff_exists_mem_beq.mpr ⟨c, List.mem_append_left _ hc, hbeq⟩
  · rw [Bool.eq_false_iff.mpr hmem, Bool.eq_false_iff]
    intro hc
    obtain ⟨c, hc', hbeq⟩ := List.contains_iff_exists_mem_beq.mp hc
    rcases List.mem_append.mp hc' with h1 | h1
    · exact hmem (List.contains_iff_exists_mem_beq.mpr ⟨c, h1, hbeq⟩)
    · exact h (beq_iff_eq.mp (List.mem_singleton.mp h1 ▸ hbeq))

theorem contains_append_singleton_self (l : List String) (a : String) :
    (l ++ [a]).contains a = true :=
  List.contains_iff_exists_mem_beq.mpr
    ⟨a, List.mem_append_right _ (List.mem_singleton.mpr rfl), by simp⟩

/-- At the destination warehouse, the dispatched single-item transfer adds
exactly its transfer line to the transfer-in query result. -/
theorem transferItemsInto_perform_self (db : DB) (f t dt : String) (x : SelectedItem)
    (tid sid : String)
    (htidItems : ∀ y ∈ db.transfer_items, y.transfer_id ≠ tid) :
    transferItemsInto (performTransfer db f t dt [x] tid sid) t x.product_id x.product_type =
      transferItemsInto db t x.product_id x.product_type ++ [newTransferItem x tid] := by
  unfold transferItemsInto
  rw [transfersInto_perform_self, List.map_append]
  show (db.transfer_items ++ [newTransferItem x tid]).filter _ = _
  rw [List.filter_append]
  have h1 : db.transfer_items.filter (fun y => y.product_type == x.product_type
        && y.product_id == x.product_id
        && ((transfersInto db t).map Transfer.id
          ++ [newTransferRow f t dt [x] tid].map Transfer.id).contains y.transfer_id)
      = db.transfer_items.filter (fun y => y.product_type == x.product_type
        && y.product_id == x.product_id
        && ((transfersInto db t).map Transfer.id).contains y.transfer_id) := by
    refine List.filter_congr ?_
    intro y hy
    rw [show [newTransferRow f t dt [x] tid].map Transfer.id = [tid] from rfl,
      contains_append_singleton_ne _ _ _ (htidItems y hy)]
  have h2 : List.filter (fun y => y.product_type == x.product_type
        && y.product_id == x.product_id
        && ((transfersInto db t).map Transfer.id
          ++ [newTransferRow f t dt [x] tid].map Transfer.id).contains y.transfer_id)
      [newTransferItem x tid] = [newTransferItem x tid] := by
    rw [List.filter_cons_of_pos ?_, List.filter_nil]
    show ((newTransferItem x tid).product_type == x.product_type
      && (newTransferItem x tid).product_id == x.product_id
      && (_ ++ [newTransferRow f t dt [x] tid].map Transfer.id).contains
        (newTransferItem x tid).transfer_id) = true
    rw [show [newTransferRow f t dt [x] tid].map Transfer.id = [tid] from rfl,
      show (newTransferItem x tid).transfer_id = tid from rfl,
      contains_append_singleton_self]
    simp [newTransferItem]
  rw [h1, h2]

/-- At the source warehouse, the dispatched single-item transfer adds
exactly its transfer line to the transfer-out query result. -/
theorem transferItemsOutOf_perform_self (db : DB) (f t dt : String) (x : SelectedItem)
    (tid sid : String)
    (htidItems : ∀ y ∈ db.transfer_items, y.transfer_id ≠ tid) :
    transferItemsOutOf (performTransfer db f t dt [x] tid sid) f x.product_id x.product_type =
      transferItemsOutOf db f x.product_id x.product_type ++ [newTransferItem x tid] := by
  unfold transferItemsOutOf
  rw [transfersOutOf_perform_self, List.map_append]
  show (db.transfer_items ++ [newTransferItem x tid]).filter _ = _
  rw [List.filter_append]
  have h1 : db.transfer_items.filter (fun y => y.product_type == x.product_type
        && y.product_id == x.product_id
        && ((transfersOutOf db f).map Transfer.id
          ++ [newTransferRow f t dt [x] tid].map Transfer.id).contains y.transfer_id)
      = db.transfer_items.filter (fun y => y.product_type == x.product_type
        && y.product_id == x.product_id
        && ((transfersOutOf db f).map Transfer.id).contains y.transfer_id) := by
    refine List.filter_congr ?_
    intro y hy
    rw [show [newTransferRow f t dt [x] tid].map Transfer.id = [tid] from rfl,
      contains_append_singleton_ne _ _ _ (htidItems y hy)]
  have h2 : List.filter (fun y => y.product_type == x.product_type
        && y.product_id == x.product_id
        && ((transfersOutOf db f).map Transfer.id
          ++ [newTransferRow f t dt [x] tid].map Transfer.id).contains y.transfer_id)
      [newTransferItem x tid] = [newTransferItem x tid] := by
    rw [List.filter_cons_of_pos ?_, List.filter_nil]
    show ((newTransferItem x tid).product_type == x.product_type
      && (newTransferItem x tid).product_id == x.product_id
      && (_ ++ [newTransferRow f t dt [x] tid].map Transfer.id).contains
        (newTransferItem x tid).transfer_id) = true
    rw [show [newTransferRow f t dt [x] tid].map Transfer.id = [tid] from rfl,
      show (newTransferItem x tid).transfer_id = tid from rfl,
      contains_append_singleton_self]
    simp [newTransferItem]
  rw [h1, h2]

end Medlab

namespace Medlab

theorem exitSumAt_append_tout (souts : List StockOutItem) (tout : List TransferItem)
    (y : TransferItem) (d : String) :
    exitSumAt souts (tout ++ [y]) d
      = exitSumAt souts tout d + if y.batch_date = d then y.quantity else 0 := by
  unfold exitSumAt
  rw [List.filter_append]
  by_cases h : y.batch_date = d
  · rw [List.filter_cons_of_pos (by simp [h]), List.filter_nil, if_pos h,
      List.map_append, List.sum_append]
    simp
    ring
  · rw [List.filter_cons_of_neg (by simp [h]), List.filter_nil, if_neg h,
      List.append_nil, add_zero]

theorem buildBatchMap_append_tin (es : List InvoiceItem) (ts : List TransferItem)
    (y : TransferItem) :
    buildBatchMap es (ts ++ [y]) =
      bmUpdate (buildBatchMap es ts) (y.batch_date, y.unit_price) y.quantity none := by
  unfold buildBatchMap
  rw [List.foldl_append]
  rfl

theorem bmQty_eq_zero_of_not_mem (m : BatchMap) (k : BatchKey) (h : k ∉ bmKeys m) :
    bmQty m k = 0 := by
  induction m with
  | nil => rfl
  | cons e m ih =>
      obtain ⟨k₀, a⟩ := e
      have hne : k₀ ≠ k := by
        intro hh
        exact h (hh ▸ List.mem_cons_self _ _)
      rw [bmQty_cons, if_neg hne, ih (fun hh => h (List.mem_cons_of_mem _ hh))]

end Medlab

namespace Medlab

/-- C4 amended: dispatching one batch line (quantity Q of product P, batch
`(d, p)`) from warehouse A to warehouse B through the transfer flow moves
exactly Q between the computed totals, PROVIDED the snapshot satisfies:
fresh document ids; at A the transferred date `d` has a single price bucket
`(d, p)` whose net is at least Q (sufficient stock in that bucket and no
same-date price collision — otherwise the per-date netting double-subtracts,
see the counterexample); at B bucket `(d, p)`'s prior net and the prior
per-date decrease total are nonnegative.  Then computed stock at A drops by
exactly Q and at B rises by exactly Q, all other rows held constant. -/
theorem transfer_shifts_stock_by_quantity (db : DB) (A B tdate tid sid : String)
    (x : SelectedItem)
    (hAB : A ≠ B)
    (hQ : 0 < x.transfer_quantity)
    (htid : ∀ tr ∈ db.transfers, tr.id ≠ tid)
    (htidItems : ∀ y ∈ db.transfer_items, y.transfer_id ≠ tid)
    (hsid : ∀ s ∈ db.stock_out, s.id ≠ sid)
    (hsingleA : ∀ k ∈ recKeys (stockEntries db A x.product_id x.product_type)
        (transferItemsInto db A x.product_id x.product_type),
      k.1 = x.batch_date → k = (x.batch_date, x.unit_price))
    (hkeyA : (x.batch_date, x.unit_price) ∈
      recKeys (stockEntries db A x.product_id x.product_type)
        (transferItemsInto db A x.product_id x.product_type))
    (hnetA : x.transfer_quantity ≤
      incSumAt (stockEntries db A x.product_id x.product_type)
          (transferItemsInto db A x.product_id x.product_type) x.batch_date x.unit_price
        - exitSumAt (stockOutItemsFor db A x.product_id x.product_type)
          (transferItemsOutOf db A x.product_id x.product_type) x.batch_date)
    (hnetB : 0 ≤
      incSumAt (stockEntries db B x.product_id x.product_type)
          (transferItemsInto db B x.product_id x.product_type) x.batch_date x.unit_price
        - exitSumAt (stockOutItemsFor db B x.product_id x.product_type)
          (transferItemsOutOf db B x.product_id x.product_type) x.batch_date)
    (hexB : 0 ≤ exitSumAt (stockOutItemsFor db B x.product_id x.product_type)
        (transferItemsOutOf db B x.product_id x.product_type) x.batch_date) :
    (calculateProductStockInWarehouse (performTransfer db A B tdate [x] tid sid)
        A x.product_id x.product_type).totalQuantity
      = (calculateProductStockInWarehouse db A x.product_id x.product_type).totalQuantity
        - x.transfer_quantity
    ∧ (calculateProductStockInWarehouse (performTransfer db A B tdate [x] tid sid)
        B x.product_id x.product_type).totalQuantity
      = (calculateProductStockInWarehouse db B x.product_id x.product_type).totalQuantity
        + x.transfer_quantity := by
  constructor
  · -- source warehouse: the new transfer-out line adds Q to date d's exits
    unfold calculateProductStockInWarehouse
    rw [assemble_totalQuantity, assemble_totalQuantity,
      stockEntries_perform,
      transferItemsInto_perform_other db A B tdate [x] tid sid A x.product_id x.product_type
        (fun h => hAB h.symm) htid,
      stockOutItemsFor_perform db A B tdate [x] tid sid A x.product_id x.product_type hsid,
      transferItemsOutOf_perform_self db A B tdate x tid sid htidItems]
    have hstep : ∀ e ∈ buildBatchMap (stockEntries db A x.product_id x.product_type)
        (transferItemsInto db A x.product_id x.product_type),
        posPart (e.2.quantity - exitSumAt
          (stockOutItemsFor db A x.product_id x.product_type)
          (transferItemsOutOf db A x.product_id x.product_type ++ [newTransferItem x tid])
          e.1.1)
        = posPart (e.2.quantity - (exitSumAt
            (stockOutItemsFor db A x.product_id x.product_type)
            (transferItemsOutOf db A x.product_id x.product_type) e.1.1
          + if x.batch_date = e.1.1 then x.transfer_quantity else 0)) := by
      intro e _
      rw [exitSumAt_append_tout]
      rfl
    rw [sum_map_congr hstep]
    obtain ⟨e0, he0, hke0⟩ := List.mem_map.mp (mem_bmKeys_buildBatchMap _ _ hkeyA)
    have hmem0 : ((x.batch_date, x.unit_price), e0.2) ∈
        buildBatchMap (stockEntries db A x.product_id x.product_type)
          (transferItemsInto db A x.product_id x.product_type) := by
      rw [← hke0]
      simpa using he0
    have hq0 : e0.2.quantity = incSumAt (stockEntries db A x.product_id x.product_type)
        (transferItemsInto db A x.product_id x.product_type) x.batch_date x.unit_price := by
      rw [← bmQty_of_mem (bmKeys_nodup_buildBatchMap _ _) hmem0, bmQty_buildBatchMap]
    have hagree : ∀ e ∈ buildBatchMap (stockEntries db A x.product_id x.product_type)
        (transferItemsInto db A x.product_id x.product_type),
        e.1 ≠ (x.batch_date, x.unit_price) →
        (fun e => posPart (e.2.quantity - (exitSumAt
            (stockOutItemsFor db A x.product_id x.product_type)
            (transferItemsOutOf db A x.product_id x.product_type) e.1.1
          + if x.batch_date = e.1.1 then x.transfer_quantity else 0))) e
        = (fun e => posPart (e.2.quantity - exitSumAt
            (stockOutItemsFor db A x.product_id x.product_type)
            (transferItemsOutOf db A x.product_id x.product_type) e.1.1)) e := by
      intro e he hne
      by_cases hd : x.batch_date = e.1.1
      · exact absurd (hsingleA e.1
          (bmKeys_buildBatchMap_subset _ _ (List.mem_map.mpr ⟨e, he, rfl⟩)) hd.symm) hne
      · show posPart (e.2.quantity - (_ + if x.batch_date = e.1.1 then _ else _)) = _
        rw [if_neg hd, add_zero]
    have hdelta := sum_map_delta_at
      (buildBatchMap (stockEntries db A x.product_id x.product_type)
        (transferItemsInto db A x.product_id x.product_type))
      (bmKeys_nodup_buildBatchMap _ _) (x.batch_date, x.unit_price) e0.2 hmem0
      (fun e => posPart (e.2.quantity - exitSumAt
          (stockOutItemsFor db A x.product_id x.product_type)
          (transferItemsOutOf db A x.product_id x.product_type) e.1.1))
      (fun e => posPart (e.2.quantity - (exitSumAt
          (stockOutItemsFor db A x.product_id x.product_type)
          (transferItemsOutOf db A x.product_id x.product_type) e.1.1
        + if x.batch_date = e.1.1 then x.transfer_quantity else 0)))
      hagree
    rw [hdelta]
    have hf : posPart (e0.2.quantity - exitSumAt
        (stockOutItemsFor db A x.product_id x.product_type)
        (transferItemsOutOf db A x.product_id x.product_type) x.batch_date)
        = e0.2.quantity - exitSumAt
          (stockOutItemsFor db A x.product_id x.product_type)
          (transferItemsOutOf db A x.product_id x.product_type) x.batch_date := by
      refine posPart_of_nonneg ?_
      rw [hq0]
      linarith
    have hg : posPart (e0.2.quantity - (exitSumAt
        (stockOutItemsFor db A x.product_id x.product_type)
        (transferItemsOutOf db A x.product_id x.product_type) x.batch_date
        + x.transfer_quantity))
        = e0.2.quantity - exitSumAt
          (stockOutItemsFor db A x.product_id x.product_type)
          (transferItemsOutOf db A x.product_id x.product_type) x.batch_date
          - x.transfer_quantity := by
      have h0 : e0.2.quantity - (exitSumAt
          (stockOutItemsFor db A x.product_id x.product_type)
          (transferItemsOutOf db A x.product_id x.product_type) x.batch_date
          + x.transfer_quantity)
          = e0.2.quantity - exitSumAt
            (stockOutItemsFor db A x.product_id x.product_type)
            (transferItemsOutOf db A x.product_id x.product_type) x.batch_date
            - x.transfer_quantity := by ring
      rw [h0]
      refine posPart_of_nonneg ?_
      rw [hq0]
      linarith
    show _ + ((fun e => posPart (e.2.quantity - (_ + if x.batch_date = e.1.1
        then x.transfer_quantity else 0)))
        ((x.batch_date, x.unit_price), e0.2)
      - (fun e => posPart (e.2.quantity - _)) ((x.batch_date, x.unit_price), e0.2)) = _
    show _ + (posPart (e0.2.quantity - (exitSumAt
        (stockOutItemsFor db A x.product_id x.product_type)
        (transferItemsOutOf db A x.product_id x.product_type) x.batch_date
        + if x.batch_date = x.batch_date then x.transfer_quantity else 0))
      - posPart (e0.2.quantity - exitSumAt
        (stockOutItemsFor db A x.product_id x.product_type)
        (transferItemsOutOf db A x.product_id x.product_type) x.batch_date)) = _
    rw [if_pos rfl, hf, hg]
    ring
  · -- destination warehouse: the new transfer-in line adds Q to bucket (d, p)
    unfold calculateProductStockInWarehouse
    rw [assemble_totalQuantity, assemble_totalQuantity,
      stockEntries_perform,
      transferItemsInto_perform_self db A B tdate x tid sid htidItems,
      stockOutItemsFor_perform db A B tdate [x] tid sid B x.product_id x.product_type hsid,
      transferItemsOutOf_perform_other db A B tdate [x] tid sid B x.product_id x.product_type
        hAB htid,
      buildBatchMap_append_tin]
    show ((bmUpdate (buildBatchMap (stockEntries db B x.product_id x.product_type)
        (transferItemsInto db B x.product_id x.product_type))
        (x.batch_date, x.unit_price) x.transfer_quantity none).map
      (fun e => posPart (e.2.quantity - exitSumAt
          (stockOutItemsFor db B x.product_id x.product_type)
          (transferItemsOutOf db B x.product_id x.product_type) e.1.1))).sum = _
    by_cases hmem : (x.batch_date, x.unit_price) ∈
        bmKeys (buildBatchMap (stockEntries db B x.product_id x.product_type)
          (transferItemsInto db B x.product_id x.product_type))
    · obtain ⟨e0, he0, hke0⟩ := List.mem_map.mp hmem
      have hmem0 : ((x.batch_date, x.unit_price), e0.2) ∈
          buildBatchMap (stockEntries db B x.product_id x.product_type)
            (transferItemsInto db B x.product_id x.product_type) := by
        rw [← hke0]
        simpa using he0
      have hq0 : e0.2.quantity = incSumAt (stockEntries db B x.product_id x.product_type)
          (transferItemsInto db B x.product_id x.product_type)
          x.batch_date x.unit_price := by
        rw [← bmQty_of_mem (bmKeys_nodup_buildBatchMap _ _) hmem0, bmQty_buildBatchMap]
      rw [sum_map_bmUpdate_mem _ (bmKeys_nodup_buildBatchMap _ _) _ e0.2 hmem0
        x.transfer_quantity _]
      have hf : posPart (e0.2.quantity - exitSumAt
          (stockOutItemsFor db B x.product_id x.product_type)
          (transferItemsOutOf db B x.product_id x.product_type) x.batch_date)
          = e0.2.quantity - exitSumAt
            (stockOutItemsFor db B x.product_id x.product_type)
            (transferItemsOutOf db B x.product_id x.product_type) x.batch_date := by
        refine posPart_of_nonneg ?_
        rw [hq0]
        linarith
      have hg : posPart (e0.2.quantity + x.transfer_quantity - exitSumAt
          (stockOutItemsFor db B x.product_id x.product_type)
          (transferItemsOutOf db B x.product_id x.product_type) x.batch_date)
          = e0.2.quantity + x.transfer_quantity - exitSumAt
            (stockOutItemsFor db B x.product_id x.product_type)
            (transferItemsOutOf db B x.product_id x.product_type) x.batch_date := by
        refine posPart_of_nonneg ?_
        rw [hq0]
        linarith
      show _ + (posPart (e0.2.quantity + x.transfer_quantity - exitSumAt
          (stockOutItemsFor db B x.product_id x.product_type)
          (transferItemsOutOf db B x.product_id x.product_type) x.batch_date)
        - posPart (e0.2.quantity - exitSumAt
          (stockOutItemsFor db B x.product_id x.product_type)
          (transferItemsOutOf db B x.product_id x.product_type) x.batch_date)) = _
      rw [hf, hg]
      ring
    · rw [bmUpdate_not_mem _ _ _ hmem, List.map_append, List.sum_append]
      have hn0 : incSumAt (stockEntries db B x.product_id x.product_type)
          (transferItemsInto db B x.product_id x.product_type)
          x.batch_date x.unit_price = 0 :=
        (bmQty_buildBatchMap _ _ (x.batch_date, x.unit_price)).symm.trans
          (bmQty_eq_zero_of_not_mem _ _ hmem)
      rw [hn0] at hnetB
      have hex0 : exitSumAt (stockOutItemsFor db B x.product_id x.product_type)
          (transferItemsOutOf db B x.product_id x.product_type) x.batch_date = 0 := by
        linarith
      show _ + (posPart (x.transfer_quantity - exitSumAt
          (stockOutItemsFor db B x.product_id x.product_type)
          (transferItemsOutOf db B x.product_id x.product_type) x.batch_date) + 0) = _
      rw [hex0, sub_zero, posPart_of_pos hQ]
      ring

end Medlab

namespace Medlab

/-- C4 counterexample: warehouse A of `twoPriceDB` holds 20 units of P1 in
two price buckets sharing one batch date (10 at price 1, 10 at price 2) —
amply sufficient stock for a 5-unit transfer out of the price-1 batch.
After dispatching that transfer to B, A's computed total drops from 20 to
10 (the per-date netting subtracts the 5-unit exit from both buckets), not
by the transferred quantity 5, refuting the claimed symmetry for arbitrary
snapshots with sufficient stock. -/
theorem transfer_symmetry_counterexample :
    (calculateProductStockInWarehouse twoPriceDB "A" "P1" ProductType.reagent).totalQuantity
      = 20
    ∧ incSumAt (stockEntries twoPriceDB "A" "P1" ProductType.reagent)
        (transferItemsInto twoPriceDB "A" "P1" ProductType.reagent) "2024-01-10" 1 = 10
    ∧ (calculateProductStockInWarehouse twoPriceDB1 "A" "P1" ProductType.reagent).totalQuantity
      = 10
    ∧ (calculateProductStockInWarehouse twoPriceDB1 "B" "P1" ProductType.reagent).totalQuantity
      = 5
    ∧ (20 : Int) - 10 ≠ 5 := by
  refine ⟨by decide, by decide, by decide, by decide, by decide⟩

/-- C4 witness: the example transfer of 30 units from `W1` to `W2` moves
exactly 30 between the computed totals. -/
theorem transfer_shifts_stock_by_quantity_witness :
    (calculateProductStockInWarehouse
        (performTransfer exampleDB "W1" "W2" "2024-01-15" [exampleSel] "T1" "SO1")
        "W1" "P1" ProductType.reagent).totalQuantity
      = (calculateProductStockInWarehouse exampleDB "W1" "P1"
          ProductType.reagent).totalQuantity - 30
    ∧ (calculateProductStockInWarehouse
        (performTransfer exampleDB "W1" "W2" "2024-01-15" [exampleSel] "T1" "SO1")
        "W2" "P1" ProductType.reagent).totalQuantity
      = (calculateProductStockInWarehouse exampleDB "W2" "P1"
          ProductType.reagent).totalQuantity + 30 :=
  transfer_shifts_stock_by_quantity exampleDB "W1" "W2" "2024-01-15" "T1" "SO1" exampleSel
    (by decide) (by decide) (by decide) (by decide) (by decide) (by decide) (by decide)
    (by decide) (by decide) (by decide)

end Medlab
